import Mathlib

/-!
Verification of the tile-grid visibility and lighting core of the repository.

The two per-tick lighting passes live in src/world.rs (update_visibility,
lines 262-367) and src/light.rs (update_visibility, lines 90-195).  Their f32
arithmetic is modelled over ℝ: addition, multiplication, division, abs, clamp,
sqrt (Vec2::length), powf (Real.rpow), tan and floor are translated to the
corresponding real operations.  Grids (Vec of Vec) are modelled as total
functions over ℤ indices; all reads and writes performed by the code happen at
indices inside the 600 x 600 grid, where the two models agree.
-/

namespace LlmGame

/-- Grid width, src/world.rs line 11: pub const WIDTH: usize = 600. -/
def WIDTH : ℕ := 600

/-- Grid height, src/world.rs line 10: pub const HEIGHT: usize = 600. -/
def HEIGHT : ℕ := 600

/-- Tile size in world units, src/world.rs line 14: WORLD_TILE_SIZE = 4.0. -/
noncomputable def WORLD_TILE_SIZE : ℝ := 4.0

/-- Chunk side length in tiles, src/world.rs line 18: CHUNK_SIZE = 25. -/
def CHUNK_SIZE : ℕ := 25

/-- Rust f32::clamp(self, lo, hi): lo if self < lo, hi if self > hi, else self
(for lo ≤ hi this equals min (max self lo) hi). -/
noncomputable def clampR (x lo hi : ℝ) : ℝ := min (max x lo) hi

/-- Rust f32::round: nearest integer, halves rounded away from zero. -/
noncomputable def rustRound (x : ℝ) : ℤ :=
  if 0 ≤ x then ⌊x + 1 / 2⌋ else -⌊-x + 1 / 2⌋

/-- The sRGB-to-linear transfer function applied per channel by bevy's
Color::srgb(..).to_linear() when the pass builds the mesh color.  This is
the rendering library's standard sRGB EOTF; it is opaque to every claim. -/
noncomputable def srgbToLinear (c : ℝ) : ℝ :=
  if c ≤ 0.04045 then c / 12.92 else ((c + 0.055) / 1.055) ^ (2.4 : ℝ)

/-- An RGBA color as stored in one mesh color slot. -/
def Color4 : Type := ℝ × ℝ × ℝ × ℝ

/-- Color::srgb(d, d, d).to_linear() as a 4-component color (alpha 1.0),
src/world.rs lines 361-362 and src/light.rs lines 189-190. -/
noncomputable def linearColorOf (display : ℝ) : Color4 :=
  (srgbToLinear display, srgbToLinear display, srgbToLinear display, 1)

/-- The eight compass facings, src/player.rs lines 104-113. -/
inductive Facing where
  | Up | UpRight | Right | DownRight | Down | DownLeft | Left | UpLeft
deriving DecidableEq, Repr

/-- facing_dir, src/world.rs lines 78-89 (duplicated identically at
src/light.rs lines 29-40): integer direction vector of a facing; the four
diagonals are deliberately not normalized. -/
def facing_dir (facing : Facing) : ℤ × ℤ :=
  match facing with
  | Facing.Up => (0, 1)
  | Facing.UpRight => (1, 1)
  | Facing.Right => (1, 0)
  | Facing.DownRight => (1, -1)
  | Facing.Down => (0, -1)
  | Facing.DownLeft => (-1, -1)
  | Facing.Left => (-1, 0)
  | Facing.UpLeft => (-1, 1)

/-- IVec2::as_vec2 applied to facing_dir: the direction as a real vector. -/
noncomputable def facingDirVec (facing : Facing) : ℝ × ℝ :=
  (((facing_dir facing).1 : ℝ), ((facing_dir facing).2 : ℝ))

/-- delta.dot(dir) of is_visible_in_cone, src/world.rs line 101, where
delta = (tile_center - player_pos) / WORLD_TILE_SIZE (line 98). -/
noncomputable def coneForward (tile_center player_pos : ℝ × ℝ) (facing : Facing) : ℝ :=
  ((tile_center.1 - player_pos.1) / WORLD_TILE_SIZE) * (facingDirVec facing).1 +
    ((tile_center.2 - player_pos.2) / WORLD_TILE_SIZE) * (facingDirVec facing).2

/-- forward_scale of is_visible_in_cone, src/world.rs line 106. -/
noncomputable def coneForwardScale (facing : Facing) : ℝ :=
  max (|(facingDirVec facing).1| + |(facingDirVec facing).2|) 1

/-- forward_steps of is_visible_in_cone, src/world.rs line 107. -/
noncomputable def coneForwardSteps (tile_center player_pos : ℝ × ℝ) (facing : Facing) : ℝ :=
  coneForward tile_center player_pos facing / coneForwardScale facing

/-- side of is_visible_in_cone, src/world.rs line 112: the 90-degree rotated
dot product delta.x * -dir.y + delta.y * dir.x. -/
noncomputable def coneSide (tile_center player_pos : ℝ × ℝ) (facing : Facing) : ℝ :=
  ((tile_center.1 - player_pos.1) / WORLD_TILE_SIZE) * -(facingDirVec facing).2 +
    ((tile_center.2 - player_pos.2) / WORLD_TILE_SIZE) * (facingDirVec facing).1

/-- is_visible_in_cone, src/world.rs lines 91-114. -/
noncomputable def is_visible_in_cone (tile_center player_pos : ℝ × ℝ) (facing : Facing)
    (range spread : ℝ) : Bool :=
  if coneForward tile_center player_pos facing ≤ 0 then false
  else if coneForwardSteps tile_center player_pos facing > range then false
  else decide (|coneSide tile_center player_pos facing| ≤
    coneForwardSteps tile_center player_pos facing * spread)

/-- is_visible_in_cone, src/light.rs lines 42-65: a second, textually identical
copy of the cone test kept by the second lighting pass. -/
noncomputable def lightIsVisibleInCone (tile_center player_pos : ℝ × ℝ) (facing : Facing)
    (range spread : ℝ) : Bool :=
  let delta1 := (tile_center.1 - player_pos.1) / WORLD_TILE_SIZE
  let delta2 := (tile_center.2 - player_pos.2) / WORLD_TILE_SIZE
  let dir := facingDirVec facing
  let forward := delta1 * dir.1 + delta2 * dir.2
  if forward ≤ 0 then false
  else
    let forward_scale := max (|dir.1| + |dir.2|) 1
    let forward_steps := forward / forward_scale
    if forward_steps > range then false
    else
      let side := delta1 * -dir.2 + delta2 * dir.1
      decide (|side| ≤ forward_steps * spread)

/-- bayer_4x4, src/world.rs lines 149-170 (duplicated identically at
src/light.rs lines 67-88): the 16-entry ordered-dither matrix indexed by
(x & 3) + ((y & 3) << 2). -/
noncomputable def bayer_4x4 (x y : ℕ) : ℝ :=
  let BAYER : List ℝ :=
    [0 / 16, 8 / 16, 2 / 16, 10 / 16,
     12 / 16, 4 / 16, 14 / 16, 6 / 16,
     3 / 16, 11 / 16, 1 / 16, 9 / 16,
     15 / 16, 7 / 16, 13 / 16, 5 / 16]
  BAYER.getD ((x &&& 3) + ((y &&& 3) <<< 2)) 0

/-- The tuning constants that differ between the pass in src/world.rs and the
pass in src/light.rs; each field is one of the file-level or function-local
constants of the corresponding update_visibility. -/
structure LightConfig where
  maxDistance : ℕ
  viewAngleDegrees : ℝ
  renderPadding : ℤ
  pixelLevels : ℝ
  ditherStrength : ℝ
  lightSnap : ℝ
  maxBrightness : ℝ
  hiddenBrightness : ℝ
  brightnessCurve : ℝ
  distanceBias : ℝ
  sideBias : ℝ
  smoothSpeed : ℝ

/-- The constants of the src/world.rs pass (lines 13-21 and 284-289). -/
noncomputable def worldConfig : LightConfig where
  maxDistance := 72
  viewAngleDegrees := 90.0
  renderPadding := 8
  pixelLevels := 6.0
  ditherStrength := 0.6
  lightSnap := WORLD_TILE_SIZE * 0.25
  maxBrightness := 0.85
  hiddenBrightness := 0.0
  brightnessCurve := 1.35
  distanceBias := 1.05
  sideBias := 1.15
  smoothSpeed := 48.0

/-- The constants of the src/light.rs pass (lines 7-12 and 112-117). -/
noncomputable def lightConfig : LightConfig where
  maxDistance := 124
  viewAngleDegrees := 120.0
  renderPadding := 8
  pixelLevels := 6.0
  ditherStrength := 0.8
  lightSnap := 1.0
  maxBrightness := 0.93
  hiddenBrightness := 0.0
  brightnessCurve := 0.70
  distanceBias := 1.05
  sideBias := 1.15
  smoothSpeed := 60.0

/-- Vec2::length of delta = (tile_center - light_pos) / WORLD_TILE_SIZE,
src/world.rs lines 327-328. -/
noncomputable def gridDistance (tile_center light_pos : ℝ × ℝ) : ℝ :=
  Real.sqrt (((tile_center.1 - light_pos.1) / WORLD_TILE_SIZE) *
      ((tile_center.1 - light_pos.1) / WORLD_TILE_SIZE) +
    ((tile_center.2 - light_pos.2) / WORLD_TILE_SIZE) *
      ((tile_center.2 - light_pos.2) / WORLD_TILE_SIZE))

/-- The target-brightness computation for a visible tile, src/world.rs lines
326-343 and src/light.rs lines 154-171 (identical code, constants drawn from
the respective file's configuration). -/
noncomputable def targetBrightness (cfg : LightConfig) (tile_center light_pos : ℝ × ℝ)
    (facing : Facing) (range spread : ℝ) : ℝ :=
  let distance := gridDistance tile_center light_pos
  let t_distance := clampR (distance / range) 0 1 ^ cfg.distanceBias
  let forward_steps := coneForwardSteps tile_center light_pos facing
  let side := coneSide tile_center light_pos facing
  let side_denom := max |forward_steps * spread| 0.0001
  let side_ratio := clampR (|side| / side_denom) 0 1 ^ cfg.sideBias
  let t := clampR (max t_distance side_ratio) 0 1
  let falloff := clampR (1 - t) 0 1 ^ cfg.brightnessCurve
  cfg.maxBrightness * falloff

/-- The WorldGrid resource, src/world.rs lines 25-30: the visibility mask
(field), the brightness mask and the static wall mask, each indexed [y][x]. -/
structure WorldGrid where
  field : ℤ → ℤ → Bool
  brightness : ℤ → ℤ → ℝ
  walls : ℤ → ℤ → Bool

/-- The renderable chunk surfaces: WorldChunks (src/world.rs lines 32-37)
together with the meshes it points into.  meshCount is the length of the
meshes vector, colorsLen i the length of mesh i's color attribute array and
colors i j its j-th color slot. -/
structure WorldChunks where
  cols : ℕ
  rows : ℕ
  meshCount : ℕ
  colorsLen : ℕ → ℕ
  colors : ℕ → ℕ → Color4

/-- The observer data the pass reads from the player entity: translation
(truncated to 2D) and PlayerState.facing. -/
structure Observer where
  pos : ℝ × ℝ
  facing : Facing

/-- walls_field, src/world.rs lines 48-57: walls exactly on the border. -/
def walls_field : ℤ → ℤ → Bool :=
  fun y x => decide (x = 0 ∨ y = 0 ∨ x = (WIDTH : ℤ) - 1 ∨ y = (HEIGHT : ℤ) - 1)

/-- The WorldGrid inserted by WorldPlugin, src/world.rs lines 374-378:
all-false visibility (vector_field), all-zero brightness (brightness_field),
border walls (walls_field). -/
noncomputable def initialGrid : WorldGrid where
  field := fun _ _ => false
  brightness := fun _ _ => 0
  walls := walls_field

/-- is_wall_tile, src/world.rs lines 59-61. -/
def is_wall_tile (grid : WorldGrid) (x y : ℤ) : Bool := grid.walls y x

/-- in_bounds, src/world.rs lines 63-68 (duplicated at src/light.rs 14-19). -/
def in_bounds (x y : ℤ) : Bool :=
  decide ((0 ≤ x ∧ 0 ≤ y) ∧ (x < (WIDTH : ℤ) ∧ y < (HEIGHT : ℤ)))

/-- set_visible, src/world.rs lines 70-76 (duplicated at src/light.rs 21-27):
bounds-checked write into the visibility mask. -/
def set_visible (field : ℤ → ℤ → Bool) (x y : ℤ) (visible : Bool) : ℤ → ℤ → Bool :=
  if in_bounds x y then
    fun ty tx => if ty = y ∧ tx = x then visible else field ty tx
  else field

/-- Chunk index of tile (x, y), src/world.rs lines 123-127. -/
def chunkIndexOf (cols x y : ℕ) : ℕ := (y / CHUNK_SIZE) * cols + x / CHUNK_SIZE

/-- First color slot of tile (x, y) inside its chunk mesh, src/world.rs
line 139: base = (local_y * CHUNK_SIZE + local_x) * 4. -/
def slotBase (x y : ℕ) : ℕ := ((y % CHUNK_SIZE) * CHUNK_SIZE + x % CHUNK_SIZE) * 4

/-- set_chunk_tile_color, src/world.rs lines 116-147: look up the tile's
chunk mesh (no-op when the mesh list or color array is too short) and write
the color into the tile's four corner slots. -/
noncomputable def set_chunk_tile_color (chunks : WorldChunks) (x y : ℕ)
    (color : Color4) : WorldChunks :=
  let index := chunkIndexOf chunks.cols x y
  let base := slotBase x y
  if index < chunks.meshCount then
    if base + 3 < chunks.colorsLen index then
      { chunks with
        colors := fun i j =>
          if i = index ∧ (base ≤ j ∧ j ≤ base + 3) then color else chunks.colors i j }
    else chunks
  else chunks

/-- The snapped light position, src/world.rs lines 274-278 (light.rs 102-106):
position rounded to the LIGHT_SNAP grid when the snap size is positive. -/
noncomputable def lightPosOf (cfg : LightConfig) (raw_pos : ℝ × ℝ) : ℝ × ℝ :=
  if cfg.lightSnap > 0 then
    (((rustRound (raw_pos.1 / cfg.lightSnap) : ℝ)) * cfg.lightSnap,
     ((rustRound (raw_pos.2 / cfg.lightSnap) : ℝ)) * cfg.lightSnap)
  else raw_pos

/-- player_tile_x, src/world.rs line 279. -/
noncomputable def ptxOf (cfg : LightConfig) (raw_pos : ℝ × ℝ) : ℤ :=
  ⌊(lightPosOf cfg raw_pos).1 / WORLD_TILE_SIZE⌋

/-- player_tile_y, src/world.rs line 280. -/
noncomputable def ptyOf (cfg : LightConfig) (raw_pos : ℝ × ℝ) : ℤ :=
  ⌊(lightPosOf cfg raw_pos).2 / WORLD_TILE_SIZE⌋

/-- range = MAX_DISTANCE as f32, src/world.rs line 281. -/
noncomputable def rangeOf (cfg : LightConfig) : ℝ := (cfg.maxDistance : ℝ)

/-- spread = tan(VIEW_ANGLE_DEGREES.to_radians() * 0.5), src/world.rs
line 282; f32::to_radians multiplies by pi / 180. -/
noncomputable def spreadOf (cfg : LightConfig) : ℝ :=
  Real.tan (cfg.viewAngleDegrees * (Real.pi / 180) * 0.5)

/-- lerp_alpha = (smooth_speed * dt).clamp(0, 1), src/world.rs line 290. -/
noncomputable def alphaOf (cfg : LightConfig) (dt : ℝ) : ℝ :=
  clampR (cfg.smoothSpeed * dt) 0 1

/-- inner_bound = range.ceil() as i32 + 2, src/world.rs line 292. -/
noncomputable def innerBoundOf (cfg : LightConfig) : ℤ := ⌈rangeOf cfg⌉ + 2

/-- outer_bound = inner_bound + RENDER_PADDING_TILES, src/world.rs line 293. -/
noncomputable def outerBoundOf (cfg : LightConfig) : ℤ :=
  innerBoundOf cfg + cfg.renderPadding

/-- min_x of the scan window, src/world.rs line 294. -/
noncomputable def winMinX (cfg : LightConfig) (raw_pos : ℝ × ℝ) : ℤ :=
  max (ptxOf cfg raw_pos - outerBoundOf cfg) 0

/-- max_x of the scan window, src/world.rs line 295. -/
noncomputable def winMaxX (cfg : LightConfig) (raw_pos : ℝ × ℝ) : ℤ :=
  min (ptxOf cfg raw_pos + outerBoundOf cfg) ((WIDTH : ℤ) - 1)

/-- min_y of the scan window, src/world.rs line 296. -/
noncomputable def winMinY (cfg : LightConfig) (raw_pos : ℝ × ℝ) : ℤ :=
  max (ptyOf cfg raw_pos - outerBoundOf cfg) 0

/-- max_y of the scan window, src/world.rs line 297. -/
noncomputable def winMaxY (cfg : LightConfig) (raw_pos : ℝ × ℝ) : ℤ :=
  min (ptyOf cfg raw_pos + outerBoundOf cfg) ((HEIGHT : ℤ) - 1)

/-- tile_center of tile (x, y), src/world.rs lines 310-313. -/
noncomputable def tileCenter (x y : ℤ) : ℝ × ℝ :=
  ((x : ℝ) * WORLD_TILE_SIZE + WORLD_TILE_SIZE * 0.5,
   (y : ℝ) * WORLD_TILE_SIZE + WORLD_TILE_SIZE * 0.5)

/-- in_inner, src/world.rs lines 306-309: tile within inner_bound of the
observer tile in both axes. -/
noncomputable def inInner (cfg : LightConfig) (ptx pty x y : ℤ) : Bool :=
  decide (ptx - innerBoundOf cfg ≤ x ∧ x ≤ ptx + innerBoundOf cfg ∧
    pty - innerBoundOf cfg ≤ y ∧ y ≤ pty + innerBoundOf cfg)

/-- The visibility decision for a scanned tile, src/world.rs lines 314-324:
cone-tested when inside the inner bound, forced false in the padding ring. -/
noncomputable def visibleAt (cfg : LightConfig) (light_pos : ℝ × ℝ) (facing : Facing)
    (ptx pty x y : ℤ) : Bool :=
  if inInner cfg ptx pty x y then
    is_visible_in_cone (tileCenter x y) light_pos facing (rangeOf cfg) (spreadOf cfg)
  else false

/-- target_brightness for a scanned tile, src/world.rs lines 326-346: the
brightness-target formula when visible, hidden_brightness otherwise. -/
noncomputable def targetAt (cfg : LightConfig) (light_pos : ℝ × ℝ) (facing : Facing)
    (ptx pty x y : ℤ) : ℝ :=
  if visibleAt cfg light_pos facing ptx pty x y then
    targetBrightness cfg (tileCenter x y) light_pos facing (rangeOf cfg) (spreadOf cfg)
  else cfg.hiddenBrightness

/-- The dither/quantizer block, src/world.rs lines 351-360: normalized
brightness, observer-locked dither phase via rem_euclid, Bayer threshold,
stepped quantization and the final display value. -/
noncomputable def quantizedDisplay (cfg : LightConfig) (next : ℝ) (x y ptx pty : ℤ) : ℝ :=
  let normalized := if cfg.maxBrightness > 0 then clampR (next / cfg.maxBrightness) 0 1 else 0
  let dx := ((x - ptx).emod 4).toNat
  let dy := ((y - pty).emod 4).toNat
  let dither := bayer_4x4 dx dy * cfg.ditherStrength
  let stepped := ((⌊normalized * cfg.pixelLevels + dither⌋ : ℤ) : ℝ) / cfg.pixelLevels
  cfg.maxBrightness * clampR stepped 0 1

/-- The body of the per-tile scan loop, src/world.rs lines 300-365 and
src/light.rs lines 128-193: skip walls, write the visibility mask, smooth
the brightness toward its target and, when the delta exceeds the tolerance,
store it and push the dithered color to the tile's chunk.  The coordinate c
is (y, x), matching the row-major loop order. -/
noncomputable def scanTile (cfg : LightConfig) (light_pos : ℝ × ℝ) (facing : Facing)
    (ptx pty : ℤ) (dt : ℝ) (s : WorldGrid × WorldChunks) (c : ℤ × ℤ) :
    WorldGrid × WorldChunks :=
  if is_wall_tile s.1 c.2 c.1 then s
  else
    let visible := visibleAt cfg light_pos facing ptx pty c.2 c.1
    let field1 := set_visible s.1.field c.2 c.1 visible
    let current := s.1.brightness c.1 c.2
    let next := current + (targetAt cfg light_pos facing ptx pty c.2 c.1 - current) *
      alphaOf cfg dt
    if |next - current| > 0.001 then
      ({ field := field1,
         brightness := fun ty tx => if ty = c.1 ∧ tx = c.2 then next else s.1.brightness ty tx,
         walls := s.1.walls },
       set_chunk_tile_color s.2 c.2.toNat c.1.toNat
         (linearColorOf (quantizedDisplay cfg next c.2 c.1 ptx pty)))
    else
      ({ field := field1, brightness := s.1.brightness, walls := s.1.walls }, s.2)

/-- The integers from lo to hi inclusive, in increasing order. -/
def intRange (lo hi : ℤ) : List ℤ :=
  (List.range (hi + 1 - lo).toNat).map fun i : ℕ => lo + (i : ℤ)

/-- The (y, x) coordinates scanned by the window loop, src/world.rs lines
299-300, in row-major order. -/
def windowCoords (min_x max_x min_y max_y : ℤ) : List (ℤ × ℤ) :=
  (intRange min_y max_y).flatMap fun y => (intRange min_x max_x).map fun x => (y, x)

/-- update_visibility parameterized by the pass constants: the common body of
src/world.rs lines 262-367 and src/light.rs lines 90-195, which are identical
up to the constants collected in the LightConfig.  Returns the state unchanged
when no observer is available (the let-else early return). -/
noncomputable def updateVisibilityWith (cfg : LightConfig) (obs : Option Observer)
    (dt : ℝ) (grid : WorldGrid) (chunks : WorldChunks) : WorldGrid × WorldChunks :=
  match obs with
  | none => (grid, chunks)
  | some o =>
    let light_pos := lightPosOf cfg o.pos
    let ptx := ptxOf cfg o.pos
    let pty := ptyOf cfg o.pos
    (windowCoords (winMinX cfg o.pos) (winMaxX cfg o.pos)
        (winMinY cfg o.pos) (winMaxY cfg o.pos)).foldl
      (scanTile cfg light_pos o.facing ptx pty dt) (grid, chunks)

/-- update_visibility, src/world.rs lines 262-367, registered by WorldPlugin
at PostUpdate (line 385). -/
noncomputable def worldUpdateVisibility (obs : Option Observer) (dt : ℝ)
    (grid : WorldGrid) (chunks : WorldChunks) : WorldGrid × WorldChunks :=
  updateVisibilityWith worldConfig obs dt grid chunks

/-- update_visibility, src/light.rs lines 90-195, registered by LightPlugin
at PostUpdate (line 201). -/
noncomputable def lightUpdateVisibility (obs : Option Observer) (dt : ℝ)
    (grid : WorldGrid) (chunks : WorldChunks) : WorldGrid × WorldChunks :=
  updateVisibilityWith lightConfig obs dt grid chunks

/-- A chunk store shaped as spawn_chunks builds it, src/world.rs lines
172-260: 24 x 24 full chunks of 25 x 25 tiles, 4 color slots per tile. -/
noncomputable def spawnedChunks : WorldChunks where
  cols := (WIDTH + CHUNK_SIZE - 1) / CHUNK_SIZE
  rows := (HEIGHT + CHUNK_SIZE - 1) / CHUNK_SIZE
  meshCount := ((WIDTH + CHUNK_SIZE - 1) / CHUNK_SIZE) * ((HEIGHT + CHUNK_SIZE - 1) / CHUNK_SIZE)
  colorsLen := fun _ => CHUNK_SIZE * CHUNK_SIZE * 4
  colors := fun _ _ => (0, 0, 0, 1)

/-- Tile (x, y) lies inside the 600 x 600 grid. -/
def inGrid (x y : ℤ) : Prop := 0 ≤ x ∧ x < (WIDTH : ℤ) ∧ 0 ≤ y ∧ y < (HEIGHT : ℤ)

/-- The temporal smoother update next = current + (target - current) * lerp_alpha,
src/world.rs lines 347-348 (the same recurrence at src/light.rs 175-176). -/
noncomputable def smoothStep (current target alpha : ℝ) : ℝ :=
  current + (target - current) * alpha

/-- n consecutive smoother updates against a held target with fixed alpha. -/
noncomputable def smoothIter (target alpha b0 : ℝ) : ℕ → ℝ
  | 0 => b0
  | n + 1 => smoothStep (smoothIter target alpha b0 n) target alpha

/-- The concrete observer used in the concrete-state evaluations: position
(402, 402) in world units, facing Right. -/
noncomputable def obsRight : Observer := ⟨(402, 402), Facing.Right⟩

/-- A concrete grid whose brightness is 0.5 everywhere, with the standard
border walls and an all-false visibility mask. -/
noncomputable def gridHalf : WorldGrid :=
  ⟨fun _ _ => false, fun _ _ => 0.5, walls_field⟩

/-- The blended smoother output next = current + (target - current) * alpha
that the pass computes for tile (x, y) before the tolerance test,
src/world.rs lines 347-348. -/
noncomputable def nextBrightnessAt (cfg : LightConfig) (o : Observer) (dt : ℝ)
    (grid : WorldGrid) (x y : ℤ) : ℝ :=
  grid.brightness y x +
    (targetAt cfg (lightPosOf cfg o.pos) o.facing (ptxOf cfg o.pos) (ptyOf cfg o.pos) x y -
      grid.brightness y x) * alphaOf cfg dt


lemma in_bounds_eq_true {x y : ℤ} (h : inGrid x y) : in_bounds x y = true := by
  obtain ⟨h1, h2, h3, h4⟩ := h
  simp [in_bounds]
  omega

lemma clampR_nonneg (x : ℝ) : 0 ≤ clampR x 0 1 :=
  le_min (le_max_right x 0) zero_le_one

lemma clampR_le_one (x : ℝ) : clampR x 0 1 ≤ 1 := min_le_right _ _

lemma clampR_eq_of_mem {x : ℝ} (h0 : 0 ≤ x) (h1 : x ≤ 1) : clampR x 0 1 = x := by
  unfold clampR
  rw [max_eq_left h0, min_eq_left h1]

lemma alphaOf_nonneg (cfg : LightConfig) (dt : ℝ) : 0 ≤ alphaOf cfg dt :=
  clampR_nonneg _

lemma alphaOf_le_one (cfg : LightConfig) (dt : ℝ) : alphaOf cfg dt ≤ 1 :=
  clampR_le_one _

lemma lerp_mem {cur tgt a M : ℝ} (hc0 : 0 ≤ cur) (hcM : cur ≤ M) (ht0 : 0 ≤ tgt)
    (htM : tgt ≤ M) (ha0 : 0 ≤ a) (ha1 : a ≤ 1) :
    0 ≤ cur + (tgt - cur) * a ∧ cur + (tgt - cur) * a ≤ M := by
  constructor <;> nlinarith

lemma targetBrightness_mem (cfg : LightConfig) (tc lp : ℝ × ℝ) (facing : Facing)
    (range spread : ℝ) (hmb : 0 ≤ cfg.maxBrightness) (hcurve : 0 ≤ cfg.brightnessCurve) :
    0 ≤ targetBrightness cfg tc lp facing range spread ∧
      targetBrightness cfg tc lp facing range spread ≤ cfg.maxBrightness := by
  unfold targetBrightness
  have h0 : (0 : ℝ) ≤ clampR (1 - clampR
      (max (clampR (gridDistance tc lp / range) 0 1 ^ cfg.distanceBias)
        (clampR (|coneSide tc lp facing| /
          max (|coneForwardSteps tc lp facing * spread|) 0.0001) 0 1 ^ cfg.sideBias)) 0 1) 0 1 :=
    clampR_nonneg _
  have h1 : clampR (1 - clampR
      (max (clampR (gridDistance tc lp / range) 0 1 ^ cfg.distanceBias)
        (clampR (|coneSide tc lp facing| /
          max (|coneForwardSteps tc lp facing * spread|) 0.0001) 0 1 ^ cfg.sideBias)) 0 1) 0 1
      ≤ 1 := clampR_le_one _
  refine ⟨mul_nonneg hmb (Real.rpow_nonneg h0 _), ?_⟩
  calc cfg.maxBrightness * (clampR (1 - clampR
      (max (clampR (gridDistance tc lp / range) 0 1 ^ cfg.distanceBias)
        (clampR (|coneSide tc lp facing| /
          max (|coneForwardSteps tc lp facing * spread|) 0.0001) 0 1 ^ cfg.sideBias)) 0 1) 0 1
        ^ cfg.brightnessCurve)
      ≤ cfg.maxBrightness * 1 :=
        mul_le_mul_of_nonneg_left (Real.rpow_le_one h0 h1 hcurve) hmb
    _ = cfg.maxBrightness := mul_one _

lemma targetAt_mem (cfg : LightConfig) (lp : ℝ × ℝ) (facing : Facing) (ptx pty x y : ℤ)
    (hmb : 0 ≤ cfg.maxBrightness) (hcurve : 0 ≤ cfg.brightnessCurve)
    (hh0 : 0 ≤ cfg.hiddenBrightness) (hhM : cfg.hiddenBrightness ≤ cfg.maxBrightness) :
    0 ≤ targetAt cfg lp facing ptx pty x y ∧
      targetAt cfg lp facing ptx pty x y ≤ cfg.maxBrightness := by
  unfold targetAt
  split
  · exact targetBrightness_mem cfg _ lp facing _ _ hmb hcurve
  · exact ⟨hh0, hhM⟩

lemma mem_intRange {z lo hi : ℤ} : z ∈ intRange lo hi ↔ lo ≤ z ∧ z ≤ hi := by
  unfold intRange
  simp only [List.mem_map, List.mem_range]
  constructor
  · rintro ⟨i, hi1, rfl⟩
    omega
  · intro h
    exact ⟨(z - lo).toNat, by omega, by omega⟩

lemma intRange_length (lo hi : ℤ) : (intRange lo hi).length = (hi + 1 - lo).toNat := by
  unfold intRange
  rw [List.length_map, List.length_range]

lemma intRange_nodup (lo hi : ℤ) : (intRange lo hi).Nodup := by
  unfold intRange
  refine List.Nodup.map (fun a b h => ?_) (List.nodup_range _)
  omega

lemma mem_windowCoords {c : ℤ × ℤ} {ax bx ay by' : ℤ} :
    c ∈ windowCoords ax bx ay by' ↔ (ay ≤ c.1 ∧ c.1 ≤ by') ∧ (ax ≤ c.2 ∧ c.2 ≤ bx) := by
  unfold windowCoords
  simp only [List.mem_flatMap, List.mem_map]
  constructor
  · rintro ⟨y, hy, x, hx, rfl⟩
    exact ⟨mem_intRange.mp hy, mem_intRange.mp hx⟩
  · rintro ⟨hy, hx⟩
    exact ⟨c.1, mem_intRange.mpr hy, c.2, mem_intRange.mpr hx, rfl⟩

lemma flatMapPairs_nodup (ys xs : List ℤ) (hys : ys.Nodup) (hxs : xs.Nodup) :
    (ys.flatMap fun y => xs.map fun x => ((y, x) : ℤ × ℤ)).Nodup := by
  induction ys with
  | nil => simp
  | cons y ys ih =>
    rw [List.flatMap_cons, List.nodup_append]
    obtain ⟨hy, hys'⟩ := List.nodup_cons.mp hys
    refine ⟨List.Nodup.map (fun a b h => by simpa using congrArg Prod.snd h) hxs,
      ih hys', ?_⟩
    intro p hp hq
    obtain ⟨x, hx, rfl⟩ := List.mem_map.mp hp
    obtain ⟨y', hy', hp'⟩ := List.mem_flatMap.mp hq
    obtain ⟨x', hx', heq⟩ := List.mem_map.mp hp'
    have hyy : y' = y := congrArg Prod.fst heq
    exact hy (hyy ▸ hy')

lemma windowCoords_nodup (ax bx ay by' : ℤ) : (windowCoords ax bx ay by').Nodup :=
  flatMapPairs_nodup _ _ (intRange_nodup ay by') (intRange_nodup ax bx)

lemma flatMapPairs_length (ys xs : List ℤ) :
    (ys.flatMap fun y => xs.map fun x => ((y, x) : ℤ × ℤ)).length =
      ys.length * xs.length := by
  induction ys with
  | nil => simp
  | cons y ys ih => simp [List.flatMap_cons, ih, Nat.succ_mul, Nat.add_comm]

lemma windowCoords_length (ax bx ay by' : ℤ) :
    (windowCoords ax bx ay by').length = (by' + 1 - ay).toNat * (bx + 1 - ax).toNat := by
  unfold windowCoords
  rw [flatMapPairs_length, intRange_length, intRange_length]

lemma nodup_split {α : Type} {l : List α} {a : α} (h : a ∈ l) (hn : l.Nodup) :
    ∃ l₁ l₂, l = l₁ ++ a :: l₂ ∧ a ∉ l₁ ∧ a ∉ l₂ := by
  obtain ⟨s, t, rfl⟩ := List.append_of_mem h
  rw [List.nodup_append] at hn
  obtain ⟨_, hat, hdisj⟩ := hn
  exact ⟨s, t, rfl, fun hs => hdisj hs (List.mem_cons_self a t), (List.nodup_cons.mp hat).1⟩

lemma set_visible_other {f : ℤ → ℤ → Bool} {x0 y0 : ℤ} {v : Bool} {y x : ℤ}
    (h : ¬(y = y0 ∧ x = x0)) : set_visible f x0 y0 v y x = f y x := by
  unfold set_visible
  split
  · exact if_neg h
  · rfl

lemma set_chunk_tile_color_cols (chunks : WorldChunks) (x y : ℕ) (color : Color4) :
    (set_chunk_tile_color chunks x y color).cols = chunks.cols := by
  simp only [set_chunk_tile_color]
  split
  · split <;> rfl
  · rfl

lemma set_chunk_tile_color_meshCount (chunks : WorldChunks) (x y : ℕ) (color : Color4) :
    (set_chunk_tile_color chunks x y color).meshCount = chunks.meshCount := by
  simp only [set_chunk_tile_color]
  split
  · split <;> rfl
  · rfl

lemma set_chunk_tile_color_colorsLen (chunks : WorldChunks) (x y : ℕ) (color : Color4) :
    (set_chunk_tile_color chunks x y color).colorsLen = chunks.colorsLen := by
  simp only [set_chunk_tile_color]
  split
  · split <;> rfl
  · rfl

lemma chunk_slots_inj {qx qy cx cy : ℕ} (hqx : qx < WIDTH) (hqy : qy < HEIGHT)
    (hcx : cx < WIDTH) (hcy : cy < HEIGHT)
    (hidx : chunkIndexOf 24 qx qy = chunkIndexOf 24 cx cy) {j : ℕ}
    (hq1 : slotBase qx qy ≤ j) (hq2 : j ≤ slotBase qx qy + 3)
    (hc1 : slotBase cx cy ≤ j) (hc2 : j ≤ slotBase cx cy + 3) : qx = cx ∧ qy = cy := by
  simp only [chunkIndexOf, slotBase, CHUNK_SIZE, WIDTH, HEIGHT] at *
  omega

lemma set_chunk_tile_color_other {chunks : WorldChunks} {cx cy qx qy : ℕ}
    {color : Color4} (hcols : chunks.cols = 24) (hqx : qx < WIDTH) (hqy : qy < HEIGHT)
    (hcx : cx < WIDTH) (hcy : cy < HEIGHT) (hne : ¬(qx = cx ∧ qy = cy)) {j : ℕ}
    (hj1 : slotBase qx qy ≤ j) (hj2 : j ≤ slotBase qx qy + 3) :
    (set_chunk_tile_color chunks cx cy color).colors (chunkIndexOf 24 qx qy) j =
      chunks.colors (chunkIndexOf 24 qx qy) j := by
  simp only [set_chunk_tile_color]
  rw [hcols]
  split
  · split
    · refine if_neg ?_
      rintro ⟨hidx, hb1, hb2⟩
      exact hne (chunk_slots_inj hqx hqy hcx hcy hidx hj1 hj2 hb1 hb2)
    · rfl
  · rfl

lemma scanTile_walls (cfg : LightConfig) (lp : ℝ × ℝ) (facing : Facing) (ptx pty : ℤ)
    (dt : ℝ) (s : WorldGrid × WorldChunks) (c : ℤ × ℤ) :
    (scanTile cfg lp facing ptx pty dt s c).1.walls = s.1.walls := by
  simp only [scanTile]
  split
  · rfl
  · split <;> rfl

lemma scanTile_cols (cfg : LightConfig) (lp : ℝ × ℝ) (facing : Facing) (ptx pty : ℤ)
    (dt : ℝ) (s : WorldGrid × WorldChunks) (c : ℤ × ℤ) :
    (scanTile cfg lp facing ptx pty dt s c).2.cols = s.2.cols := by
  simp only [scanTile]
  split
  · rfl
  · split
    · exact set_chunk_tile_color_cols _ _ _ _
    · rfl

lemma scanTile_meshCount (cfg : LightConfig) (lp : ℝ × ℝ) (facing : Facing) (ptx pty : ℤ)
    (dt : ℝ) (s : WorldGrid × WorldChunks) (c : ℤ × ℤ) :
    (scanTile cfg lp facing ptx pty dt s c).2.meshCount = s.2.meshCount := by
  simp only [scanTile]
  split
  · rfl
  · split
    · exact set_chunk_tile_color_meshCount _ _ _ _
    · rfl

lemma scanTile_colorsLen (cfg : LightConfig) (lp : ℝ × ℝ) (facing : Facing) (ptx pty : ℤ)
    (dt : ℝ) (s : WorldGrid × WorldChunks) (c : ℤ × ℤ) :
    (scanTile cfg lp facing ptx pty dt s c).2.colorsLen = s.2.colorsLen := by
  simp only [scanTile]
  split
  · rfl
  · split
    · exact set_chunk_tile_color_colorsLen _ _ _ _
    · rfl

lemma scanTile_field_other {cfg : LightConfig} {lp : ℝ × ℝ} {facing : Facing}
    {ptx pty : ℤ} {dt : ℝ} {s : WorldGrid × WorldChunks} {c : ℤ × ℤ} {y x : ℤ}
    (h : ¬(y = c.1 ∧ x = c.2)) :
    (scanTile cfg lp facing ptx pty dt s c).1.field y x = s.1.field y x := by
  simp only [scanTile]
  split
  · rfl
  · split <;> exact set_visible_other h

lemma scanTile_brightness_other {cfg : LightConfig} {lp : ℝ × ℝ} {facing : Facing}
    {ptx pty : ℤ} {dt : ℝ} {s : WorldGrid × WorldChunks} {c : ℤ × ℤ} {y x : ℤ}
    (h : ¬(y = c.1 ∧ x = c.2)) :
    (scanTile cfg lp facing ptx pty dt s c).1.brightness y x = s.1.brightness y x := by
  simp only [scanTile]
  split
  · rfl
  · split
    · exact if_neg h
    · rfl

lemma scanTile_colors_other {cfg : LightConfig} {lp : ℝ × ℝ} {facing : Facing}
    {ptx pty : ℤ} {dt : ℝ} {s : WorldGrid × WorldChunks} {c : ℤ × ℤ} {x y : ℤ}
    (hgc : inGrid c.2 c.1) (hgq : inGrid x y) (hne : ¬(c.1 = y ∧ c.2 = x))
    (hcols : s.2.cols = 24) {j : ℕ} (hj1 : slotBase x.toNat y.toNat ≤ j)
    (hj2 : j ≤ slotBase x.toNat y.toNat + 3) :
    (scanTile cfg lp facing ptx pty dt s c).2.colors (chunkIndexOf 24 x.toNat y.toNat) j =
      s.2.colors (chunkIndexOf 24 x.toNat y.toNat) j := by
  obtain ⟨ha1, ha2, ha3, ha4⟩ := hgc
  obtain ⟨hb1, hb2, hb3, hb4⟩ := hgq
  simp only [scanTile]
  split
  · rfl
  · split
    · refine set_chunk_tile_color_other hcols ?_ ?_ ?_ ?_ ?_ hj1 hj2
      · simp only [WIDTH] at hb2 ⊢
        omega
      · simp only [HEIGHT] at hb4 ⊢
        omega
      · simp only [WIDTH] at ha2 ⊢
        omega
      · simp only [HEIGHT] at ha4 ⊢
        omega
      · intro hcontra
        exact hne ⟨by omega, by omega⟩
    · rfl

lemma foldl_scan_walls (cfg : LightConfig) (lp : ℝ × ℝ) (facing : Facing) (ptx pty : ℤ)
    (dt : ℝ) (l : List (ℤ × ℤ)) (s : WorldGrid × WorldChunks) :
    (l.foldl (scanTile cfg lp facing ptx pty dt) s).1.walls = s.1.walls := by
  induction l generalizing s with
  | nil => rfl
  | cons c l ih => rw [List.foldl_cons, ih, scanTile_walls]

lemma foldl_scan_cols (cfg : LightConfig) (lp : ℝ × ℝ) (facing : Facing) (ptx pty : ℤ)
    (dt : ℝ) (l : List (ℤ × ℤ)) (s : WorldGrid × WorldChunks) :
    (l.foldl (scanTile cfg lp facing ptx pty dt) s).2.cols = s.2.cols := by
  induction l generalizing s with
  | nil => rfl
  | cons c l ih => rw [List.foldl_cons, ih, scanTile_cols]

lemma foldl_scan_meshCount (cfg : LightConfig) (lp : ℝ × ℝ) (facing : Facing)
    (ptx pty : ℤ) (dt : ℝ) (l : List (ℤ × ℤ)) (s : WorldGrid × WorldChunks) :
    (l.foldl (scanTile cfg lp facing ptx pty dt) s).2.meshCount = s.2.meshCount := by
  induction l generalizing s with
  | nil => rfl
  | cons c l ih => rw [List.foldl_cons, ih, scanTile_meshCount]

lemma foldl_scan_colorsLen (cfg : LightConfig) (lp : ℝ × ℝ) (facing : Facing)
    (ptx pty : ℤ) (dt : ℝ) (l : List (ℤ × ℤ)) (s : WorldGrid × WorldChunks) :
    (l.foldl (scanTile cfg lp facing ptx pty dt) s).2.colorsLen = s.2.colorsLen := by
  induction l generalizing s with
  | nil => rfl
  | cons c l ih => rw [List.foldl_cons, ih, scanTile_colorsLen]

lemma foldl_scan_field_other {cfg : LightConfig} {lp : ℝ × ℝ} {facing : Facing}
    {ptx pty : ℤ} {dt : ℝ} {l : List (ℤ × ℤ)} {s : WorldGrid × WorldChunks} {y x : ℤ}
    (h : ∀ c ∈ l, ¬(y = c.1 ∧ x = c.2)) :
    (l.foldl (scanTile cfg lp facing ptx pty dt) s).1.field y x = s.1.field y x := by
  induction l generalizing s with
  | nil => rfl
  | cons c l ih =>
    rw [List.foldl_cons, ih (fun d hd => h d (List.mem_cons_of_mem c hd)),
      scanTile_field_other (h c (List.mem_cons_self c l))]

lemma foldl_scan_brightness_other {cfg : LightConfig} {lp : ℝ × ℝ} {facing : Facing}
    {ptx pty : ℤ} {dt : ℝ} {l : List (ℤ × ℤ)} {s : WorldGrid × WorldChunks} {y x : ℤ}
    (h : ∀ c ∈ l, ¬(y = c.1 ∧ x = c.2)) :
    (l.foldl (scanTile cfg lp facing ptx pty dt) s).1.brightness y x =
      s.1.brightness y x := by
  induction l generalizing s with
  | nil => rfl
  | cons c l ih =>
    rw [List.foldl_cons, ih (fun d hd => h d (List.mem_cons_of_mem c hd)),
      scanTile_brightness_other (h c (List.mem_cons_self c l))]

lemma foldl_scan_colors_other {cfg : LightConfig} {lp : ℝ × ℝ} {facing : Facing}
    {ptx pty : ℤ} {dt : ℝ} {l : List (ℤ × ℤ)} {s : WorldGrid × WorldChunks} {x y : ℤ}
    (hg : ∀ c ∈ l, inGrid c.2 c.1) (h : ∀ c ∈ l, ¬(c.1 = y ∧ c.2 = x))
    (hq : inGrid x y) (hcols : s.2.cols = 24) {j : ℕ}
    (hj1 : slotBase x.toNat y.toNat ≤ j) (hj2 : j ≤ slotBase x.toNat y.toNat + 3) :
    (l.foldl (scanTile cfg lp facing ptx pty dt) s).2.colors
        (chunkIndexOf 24 x.toNat y.toNat) j =
      s.2.colors (chunkIndexOf 24 x.toNat y.toNat) j := by
  induction l generalizing s with
  | nil => rfl
  | cons c l ih =>
    rw [List.foldl_cons,
      ih (fun d hd => hg d (List.mem_cons_of_mem c hd))
        (fun d hd => h d (List.mem_cons_of_mem c hd))
        (by rw [scanTile_cols]; exact hcols),
      scanTile_colors_other (hg c (List.mem_cons_self c l))
        hq (h c (List.mem_cons_self c l)) hcols hj1 hj2]

lemma set_visible_self {f : ℤ → ℤ → Bool} {x0 y0 : ℤ} {v : Bool}
    (h : in_bounds x0 y0 = true) : set_visible f x0 y0 v y0 x0 = v := by
  unfold set_visible
  rw [h]
  simp

lemma set_chunk_tile_color_self {chunks : WorldChunks} {x y : ℕ} {color : Color4}
    (hcols : chunks.cols = 24) {j : ℕ} (hj1 : slotBase x y ≤ j)
    (hj2 : j ≤ slotBase x y + 3) :
    (set_chunk_tile_color chunks x y color).colors (chunkIndexOf 24 x y) j =
      if chunkIndexOf 24 x y < chunks.meshCount then
        if slotBase x y + 3 < chunks.colorsLen (chunkIndexOf 24 x y) then color
        else chunks.colors (chunkIndexOf 24 x y) j
      else chunks.colors (chunkIndexOf 24 x y) j := by
  simp only [set_chunk_tile_color]
  rw [hcols]
  split
  · split
    · simp [hj1, hj2]
    · rfl
  · rfl

lemma scanTile_field_self {cfg : LightConfig} {lp : ℝ × ℝ} {facing : Facing}
    {ptx pty : ℤ} {dt : ℝ} {s : WorldGrid × WorldChunks} {y x : ℤ}
    (hg : inGrid x y) (hw : s.1.walls y x = false) :
    (scanTile cfg lp facing ptx pty dt s (y, x)).1.field y x =
      visibleAt cfg lp facing ptx pty x y := by
  simp only [scanTile, is_wall_tile]
  rw [hw]
  simp only [Bool.false_eq_true, if_false]
  split <;> exact set_visible_self (in_bounds_eq_true hg)

lemma scanTile_brightness_self {cfg : LightConfig} {lp : ℝ × ℝ} {facing : Facing}
    {ptx pty : ℤ} {dt : ℝ} {s : WorldGrid × WorldChunks} {y x : ℤ}
    (hw : s.1.walls y x = false) :
    (scanTile cfg lp facing ptx pty dt s (y, x)).1.brightness y x =
      if |s.1.brightness y x +
            (targetAt cfg lp facing ptx pty x y - s.1.brightness y x) * alphaOf cfg dt -
            s.1.brightness y x| > 0.001 then
        s.1.brightness y x +
          (targetAt cfg lp facing ptx pty x y - s.1.brightness y x) * alphaOf cfg dt
      else s.1.brightness y x := by
  simp only [scanTile, is_wall_tile]
  rw [hw]
  simp only [Bool.false_eq_true, if_false]
  split
  · simp
  · rfl

lemma scanTile_chunks_self {cfg : LightConfig} {lp : ℝ × ℝ} {facing : Facing}
    {ptx pty : ℤ} {dt : ℝ} {s : WorldGrid × WorldChunks} {y x : ℤ}
    (hw : s.1.walls y x = false) :
    (scanTile cfg lp facing ptx pty dt s (y, x)).2 =
      if |s.1.brightness y x +
            (targetAt cfg lp facing ptx pty x y - s.1.brightness y x) * alphaOf cfg dt -
            s.1.brightness y x| > 0.001 then
        set_chunk_tile_color s.2 x.toNat y.toNat
          (linearColorOf (quantizedDisplay cfg
            (s.1.brightness y x +
              (targetAt cfg lp facing ptx pty x y - s.1.brightness y x) * alphaOf cfg dt)
            x y ptx pty))
      else s.2 := by
  simp only [scanTile, is_wall_tile]
  rw [hw]
  simp only [Bool.false_eq_true, if_false]
  split
  · rfl
  · rfl

lemma pass_window_mem_bounds {cfg : LightConfig} {p : ℝ × ℝ} {c : ℤ × ℤ}
    (hc : c ∈ windowCoords (winMinX cfg p) (winMaxX cfg p) (winMinY cfg p) (winMaxY cfg p)) :
    (ptxOf cfg p - outerBoundOf cfg ≤ c.2 ∧ c.2 ≤ ptxOf cfg p + outerBoundOf cfg ∧
      ptyOf cfg p - outerBoundOf cfg ≤ c.1 ∧ c.1 ≤ ptyOf cfg p + outerBoundOf cfg) ∧
      inGrid c.2 c.1 := by
  rw [mem_windowCoords] at hc
  obtain ⟨⟨h1, h2⟩, h3, h4⟩ := hc
  unfold winMinY at h1
  unfold winMaxY at h2
  unfold winMinX at h3
  unfold winMaxX at h4
  unfold inGrid
  simp only [WIDTH, HEIGHT] at h2 h4 ⊢
  omega

lemma pass_field_outside {cfg : LightConfig} {o : Observer} {dt : ℝ} {grid : WorldGrid}
    {chunks : WorldChunks} {y x : ℤ}
    (hout : x < ptxOf cfg o.pos - outerBoundOf cfg ∨ ptxOf cfg o.pos + outerBoundOf cfg < x ∨
      y < ptyOf cfg o.pos - outerBoundOf cfg ∨ ptyOf cfg o.pos + outerBoundOf cfg < y) :
    (updateVisibilityWith cfg (some o) dt grid chunks).1.field y x = grid.field y x := by
  simp only [updateVisibilityWith]
  refine foldl_scan_field_other fun c hc => ?_
  obtain ⟨⟨h1, h2, h3, h4⟩, _⟩ := pass_window_mem_bounds hc
  rintro ⟨rfl, rfl⟩
  omega

lemma pass_brightness_outside {cfg : LightConfig} {o : Observer} {dt : ℝ}
    {grid : WorldGrid} {chunks : WorldChunks} {y x : ℤ}
    (hout : x < ptxOf cfg o.pos - outerBoundOf cfg ∨ ptxOf cfg o.pos + outerBoundOf cfg < x ∨
      y < ptyOf cfg o.pos - outerBoundOf cfg ∨ ptyOf cfg o.pos + outerBoundOf cfg < y) :
    (updateVisibilityWith cfg (some o) dt grid chunks).1.brightness y x =
      grid.brightness y x := by
  simp only [updateVisibilityWith]
  refine foldl_scan_brightness_other fun c hc => ?_
  obtain ⟨⟨h1, h2, h3, h4⟩, _⟩ := pass_window_mem_bounds hc
  rintro ⟨rfl, rfl⟩
  omega

lemma pass_colors_outside {cfg : LightConfig} {o : Observer} {dt : ℝ}
    {grid : WorldGrid} {chunks : WorldChunks} {y x : ℤ}
    (hout : x < ptxOf cfg o.pos - outerBoundOf cfg ∨ ptxOf cfg o.pos + outerBoundOf cfg < x ∨
      y < ptyOf cfg o.pos - outerBoundOf cfg ∨ ptyOf cfg o.pos + outerBoundOf cfg < y)
    (hq : inGrid x y) (hcols : chunks.cols = 24) {j : ℕ}
    (hj1 : slotBase x.toNat y.toNat ≤ j) (hj2 : j ≤ slotBase x.toNat y.toNat + 3) :
    (updateVisibilityWith cfg (some o) dt grid chunks).2.colors
        (chunkIndexOf 24 x.toNat y.toNat) j =
      chunks.colors (chunkIndexOf 24 x.toNat y.toNat) j := by
  simp only [updateVisibilityWith]
  refine foldl_scan_colors_other (fun c hc => (pass_window_mem_bounds hc).2)
    (fun c hc => ?_) hq hcols hj1 hj2
  obtain ⟨⟨h1, h2, h3, h4⟩, _⟩ := pass_window_mem_bounds hc
  rintro ⟨hcy, hcx⟩
  omega

lemma pass_field_in {cfg : LightConfig} {o : Observer} {dt : ℝ} {grid : WorldGrid}
    {chunks : WorldChunks} {y x : ℤ} (hg : inGrid x y) (hw : grid.walls y x = false)
    (hin : winMinY cfg o.pos ≤ y ∧ y ≤ winMaxY cfg o.pos ∧
      winMinX cfg o.pos ≤ x ∧ x ≤ winMaxX cfg o.pos) :
    (updateVisibilityWith cfg (some o) dt grid chunks).1.field y x =
      visibleAt cfg (lightPosOf cfg o.pos) o.facing (ptxOf cfg o.pos) (ptyOf cfg o.pos) x y := by
  simp only [updateVisibilityWith]
  have hmem : ((y, x) : ℤ × ℤ) ∈ windowCoords (winMinX cfg o.pos) (winMaxX cfg o.pos)
      (winMinY cfg o.pos) (winMaxY cfg o.pos) :=
    mem_windowCoords.mpr ⟨⟨hin.1, hin.2.1⟩, hin.2.2.1, hin.2.2.2⟩
  obtain ⟨l₁, l₂, hL, hn1, hn2⟩ := nodup_split hmem (windowCoords_nodup _ _ _ _)
  rw [hL, List.foldl_append, List.foldl_cons]
  rw [foldl_scan_field_other (fun c hc => fun hcon => hn2 (by
    obtain ⟨hy, hx⟩ := hcon
    rw [show ((y, x) : ℤ × ℤ) = c from Prod.ext hy hx]
    exact hc))]
  have hw1 : (l₁.foldl (scanTile cfg (lightPosOf cfg o.pos) o.facing (ptxOf cfg o.pos)
      (ptyOf cfg o.pos) dt) (grid, chunks)).1.walls y x = false := by
    rw [foldl_scan_walls]
    exact hw
  exact scanTile_field_self hg hw1

lemma pass_brightness_in {cfg : LightConfig} {o : Observer} {dt : ℝ} {grid : WorldGrid}
    {chunks : WorldChunks} {y x : ℤ} (hg : inGrid x y) (hw : grid.walls y x = false)
    (hin : winMinY cfg o.pos ≤ y ∧ y ≤ winMaxY cfg o.pos ∧
      winMinX cfg o.pos ≤ x ∧ x ≤ winMaxX cfg o.pos) :
    (updateVisibilityWith cfg (some o) dt grid chunks).1.brightness y x =
      (if |grid.brightness y x +
            (targetAt cfg (lightPosOf cfg o.pos) o.facing (ptxOf cfg o.pos) (ptyOf cfg o.pos) x y -
              grid.brightness y x) * alphaOf cfg dt - grid.brightness y x| > 0.001 then
        grid.brightness y x +
          (targetAt cfg (lightPosOf cfg o.pos) o.facing (ptxOf cfg o.pos) (ptyOf cfg o.pos) x y -
            grid.brightness y x) * alphaOf cfg dt
      else grid.brightness y x) := by
  simp only [updateVisibilityWith]
  have hmem : ((y, x) : ℤ × ℤ) ∈ windowCoords (winMinX cfg o.pos) (winMaxX cfg o.pos)
      (winMinY cfg o.pos) (winMaxY cfg o.pos) :=
    mem_windowCoords.mpr ⟨⟨hin.1, hin.2.1⟩, hin.2.2.1, hin.2.2.2⟩
  obtain ⟨l₁, l₂, hL, hn1, hn2⟩ := nodup_split hmem (windowCoords_nodup _ _ _ _)
  rw [hL, List.foldl_append, List.foldl_cons]
  rw [foldl_scan_brightness_other (fun c hc => fun hcon => hn2 (by
    obtain ⟨hy, hx⟩ := hcon
    rw [show ((y, x) : ℤ × ℤ) = c from Prod.ext hy hx]
    exact hc))]
  have hw1 : (l₁.foldl (scanTile cfg (lightPosOf cfg o.pos) o.facing (ptxOf cfg o.pos)
      (ptyOf cfg o.pos) dt) (grid, chunks)).1.walls y x = false := by
    rw [foldl_scan_walls]
    exact hw
  rw [scanTile_brightness_self hw1]
  rw [foldl_scan_brightness_other (fun c hc => fun hcon => hn1 (by
    obtain ⟨hy, hx⟩ := hcon
    rw [show ((y, x) : ℤ × ℤ) = c from Prod.ext hy hx]
    exact hc))]

lemma pass_colors_in {cfg : LightConfig} {o : Observer} {dt : ℝ} {grid : WorldGrid}
    {chunks : WorldChunks} {y x : ℤ} (hg : inGrid x y) (hw : grid.walls y x = false)
    (hin : winMinY cfg o.pos ≤ y ∧ y ≤ winMaxY cfg o.pos ∧
      winMinX cfg o.pos ≤ x ∧ x ≤ winMaxX cfg o.pos)
    (hcols : chunks.cols = 24) {j : ℕ} (hj1 : slotBase x.toNat y.toNat ≤ j)
    (hj2 : j ≤ slotBase x.toNat y.toNat + 3) :
    (updateVisibilityWith cfg (some o) dt grid chunks).2.colors
        (chunkIndexOf 24 x.toNat y.toNat) j =
      (if |grid.brightness y x +
            (targetAt cfg (lightPosOf cfg o.pos) o.facing (ptxOf cfg o.pos) (ptyOf cfg o.pos) x y -
              grid.brightness y x) * alphaOf cfg dt - grid.brightness y x| > 0.001 then
        (if chunkIndexOf 24 x.toNat y.toNat < chunks.meshCount then
          if slotBase x.toNat y.toNat + 3 < chunks.colorsLen (chunkIndexOf 24 x.toNat y.toNat) then
            linearColorOf (quantizedDisplay cfg
              (grid.brightness y x +
                (targetAt cfg (lightPosOf cfg o.pos) o.facing (ptxOf cfg o.pos)
                  (ptyOf cfg o.pos) x y - grid.brightness y x) * alphaOf cfg dt)
              x y (ptxOf cfg o.pos) (ptyOf cfg o.pos))
          else chunks.colors (chunkIndexOf 24 x.toNat y.toNat) j
        else chunks.colors (chunkIndexOf 24 x.toNat y.toNat) j)
      else chunks.colors (chunkIndexOf 24 x.toNat y.toNat) j) := by
  simp only [updateVisibilityWith]
  have hmem : ((y, x) : ℤ × ℤ) ∈ windowCoords (winMinX cfg o.pos) (winMaxX cfg o.pos)
      (winMinY cfg o.pos) (winMaxY cfg o.pos) :=
    mem_windowCoords.mpr ⟨⟨hin.1, hin.2.1⟩, hin.2.2.1, hin.2.2.2⟩
  obtain ⟨l₁, l₂, hL, hn1, hn2⟩ := nodup_split hmem (windowCoords_nodup _ _ _ _)
  have hLg : ∀ c ∈ windowCoords (winMinX cfg o.pos) (winMaxX cfg o.pos)
      (winMinY cfg o.pos) (winMaxY cfg o.pos), inGrid c.2 c.1 :=
    fun c hc => (pass_window_mem_bounds hc).2
  rw [hL] at hLg
  rw [hL, List.foldl_append, List.foldl_cons]
  have hcols1 : (l₁.foldl (scanTile cfg (lightPosOf cfg o.pos) o.facing (ptxOf cfg o.pos)
      (ptyOf cfg o.pos) dt) (grid, chunks)).2.cols = 24 := by
    rw [foldl_scan_cols]
    exact hcols
  have hw1 : (l₁.foldl (scanTile cfg (lightPosOf cfg o.pos) o.facing (ptxOf cfg o.pos)
      (ptyOf cfg o.pos) dt) (grid, chunks)).1.walls y x = false := by
    rw [foldl_scan_walls]
    exact hw
  rw [foldl_scan_colors_other
    (fun c hc => hLg c (by
      rw [List.mem_append]
      exact Or.inr (List.mem_cons_of_mem _ hc)))
    (fun c hc => fun hcon => hn2 (by
      rw [show ((y, x) : ℤ × ℤ) = c from Prod.ext hcon.1.symm hcon.2.symm]
      exact hc))
    hg
    (by rw [scanTile_cols]; exact hcols1)
    hj1 hj2]
  rw [scanTile_chunks_self hw1]
  rw [foldl_scan_brightness_other (fun c hc => fun hcon => hn1 (by
    obtain ⟨hy, hx⟩ := hcon
    rw [show ((y, x) : ℤ × ℤ) = c from Prod.ext hy hx]
    exact hc))]
  split
  · rw [set_chunk_tile_color_self hcols1 hj1 hj2, foldl_scan_meshCount, foldl_scan_colorsLen]
    rw [foldl_scan_colors_other
      (fun c hc => hLg c (by
        rw [List.mem_append]
        exact Or.inl hc))
      (fun c hc => fun hcon => hn1 (by
        rw [show ((y, x) : ℤ × ℤ) = c from Prod.ext hcon.1.symm hcon.2.symm]
        exact hc))
      hg hcols hj1 hj2]
  · rw [foldl_scan_colors_other
      (fun c hc => hLg c (by
        rw [List.mem_append]
        exact Or.inl hc))
      (fun c hc => fun hcon => hn1 (by
        rw [show ((y, x) : ℤ × ℤ) = c from Prod.ext hcon.1.symm hcon.2.symm]
        exact hc))
      hg hcols hj1 hj2]

lemma scanTile_brightness_inv {cfg : LightConfig} {lp : ℝ × ℝ} {facing : Facing}
    {ptx pty : ℤ} {dt : ℝ} {s : WorldGrid × WorldChunks} {c : ℤ × ℤ}
    (hmb : 0 ≤ cfg.maxBrightness) (hcurve : 0 ≤ cfg.brightnessCurve)
    (hh0 : 0 ≤ cfg.hiddenBrightness) (hhM : cfg.hiddenBrightness ≤ cfg.maxBrightness)
    (hinv : ∀ y x : ℤ, 0 ≤ s.1.brightness y x ∧ s.1.brightness y x ≤ cfg.maxBrightness) :
    ∀ y x : ℤ, 0 ≤ (scanTile cfg lp facing ptx pty dt s c).1.brightness y x ∧
      (scanTile cfg lp facing ptx pty dt s c).1.brightness y x ≤ cfg.maxBrightness := by
  intro y x
  simp only [scanTile]
  split
  · exact hinv y x
  · split
    · simp only
      split
      · exact lerp_mem (hinv c.1 c.2).1 (hinv c.1 c.2).2
          (targetAt_mem cfg lp facing ptx pty c.2 c.1 hmb hcurve hh0 hhM).1
          (targetAt_mem cfg lp facing ptx pty c.2 c.1 hmb hcurve hh0 hhM).2
          (alphaOf_nonneg cfg dt) (alphaOf_le_one cfg dt)
      · exact hinv y x
    · exact hinv y x

lemma pass_brightness_inv (cfg : LightConfig) (obs : Option Observer) (dt : ℝ)
    (grid : WorldGrid) (chunks : WorldChunks)
    (hmb : 0 ≤ cfg.maxBrightness) (hcurve : 0 ≤ cfg.brightnessCurve)
    (hh0 : 0 ≤ cfg.hiddenBrightness) (hhM : cfg.hiddenBrightness ≤ cfg.maxBrightness)
    (hinv : ∀ y x : ℤ, 0 ≤ grid.brightness y x ∧ grid.brightness y x ≤ cfg.maxBrightness) :
    ∀ y x : ℤ, 0 ≤ (updateVisibilityWith cfg obs dt grid chunks).1.brightness y x ∧
      (updateVisibilityWith cfg obs dt grid chunks).1.brightness y x ≤ cfg.maxBrightness := by
  match obs with
  | none => exact hinv
  | some o =>
    simp only [updateVisibilityWith]
    generalize windowCoords (winMinX cfg o.pos) (winMaxX cfg o.pos)
      (winMinY cfg o.pos) (winMaxY cfg o.pos) = l
    induction l generalizing grid chunks with
    | nil => exact hinv
    | cons c l ih =>
      rw [List.foldl_cons]
      have hstep := @scanTile_brightness_inv cfg (lightPosOf cfg o.pos) o.facing
        (ptxOf cfg o.pos) (ptyOf cfg o.pos) dt (grid, chunks) c
        hmb hcurve hh0 hhM hinv
      exact fun y x => by
        have := ih ((scanTile cfg (lightPosOf cfg o.pos) o.facing (ptxOf cfg o.pos)
          (ptyOf cfg o.pos) dt (grid, chunks) c).1)
          ((scanTile cfg (lightPosOf cfg o.pos) o.facing (ptxOf cfg o.pos)
          (ptyOf cfg o.pos) dt (grid, chunks) c).2) hstep y x
        exact this

lemma lerp_between {cur tgt a : ℝ} (h0 : 0 ≤ a) (h1 : a ≤ 1) :
    min cur tgt ≤ smoothStep cur tgt a ∧ smoothStep cur tgt a ≤ max cur tgt := by
  unfold smoothStep
  rcases le_total cur tgt with h | h
  · rw [min_eq_left h, max_eq_right h]
    constructor <;> nlinarith
  · rw [min_eq_right h, max_eq_left h]
    constructor <;> nlinarith

/-- C10: when no observer is available for the tick, both registered lighting
passes perform no work at all: the visibility mask, the brightness mask and
every chunk color are returned unchanged, so the previous state persists. -/
theorem c10_missing_observer_is_noop (dt : ℝ) (grid : WorldGrid) (chunks : WorldChunks) :
    worldUpdateVisibility none dt grid chunks = (grid, chunks) ∧
      lightUpdateVisibility none dt grid chunks = (grid, chunks) :=
  ⟨rfl, rfl⟩

/-- C4: a tile whose forward component delta.dot(dir) is at most zero is never
visible, for both copies of is_visible_in_cone, regardless of range, spread or
distance. -/
theorem c4_behind_observer_excluded (tc pp : ℝ × ℝ) (facing : Facing) (range spread : ℝ)
    (h : coneForward tc pp facing ≤ 0) :
    is_visible_in_cone tc pp facing range spread = false ∧
      lightIsVisibleInCone tc pp facing range spread = false := by
  have h' := h
  unfold coneForward at h'
  constructor
  · unfold is_visible_in_cone
    rw [if_pos h]
  · simp only [lightIsVisibleInCone]
    rw [if_pos h']

/-- C4 witness: the tile center (0, 402) seen from (402, 402) facing Right has
forward component -100.5 ≤ 0 and is reported not visible by both cone tests. -/
theorem c4_behind_observer_excluded_witness :
    is_visible_in_cone (0, 402) (402, 402) Facing.Right 72 1 = false ∧
      lightIsVisibleInCone (0, 402) (402, 402) Facing.Right 72 1 = false :=
  c4_behind_observer_excluded (0, 402) (402, 402) Facing.Right 72 1 (by
    simp only [coneForward, facingDirVec, facing_dir, WORLD_TILE_SIZE]
    norm_num)

/-- C5: the range test of is_visible_in_cone is inclusive: with positive
forward component and the side component within the cone, a tile whose
forward_steps equals range exactly is visible, while any range strictly below
forward_steps makes the tile not visible. -/
theorem c5_range_boundary_inclusive (tc pp : ℝ × ℝ) (facing : Facing) (range spread : ℝ)
    (hfwd : 0 < coneForward tc pp facing)
    (hside : |coneSide tc pp facing| ≤ coneForwardSteps tc pp facing * spread) :
    (coneForwardSteps tc pp facing = range →
      is_visible_in_cone tc pp facing range spread = true) ∧
    (∀ r : ℝ, r < coneForwardSteps tc pp facing →
      is_visible_in_cone tc pp facing r spread = false) := by
  constructor
  · intro heq
    unfold is_visible_in_cone
    rw [if_neg (not_le.mpr hfwd), if_neg (show ¬(coneForwardSteps tc pp facing > range) by
      rw [heq]
      exact lt_irrefl range)]
    exact decide_eq_true (heq ▸ hside)
  · intro r hr
    unfold is_visible_in_cone
    rw [if_neg (not_le.mpr hfwd), if_pos hr]

/-- C5 witness: from (0, 0) facing Right with spread 1, the tile center
(32, 0) has forward_steps = 8: it is visible at range 8 and not visible at
range 7. -/
theorem c5_range_boundary_inclusive_witness :
    is_visible_in_cone (32, 0) (0, 0) Facing.Right 8 1 = true ∧
      is_visible_in_cone (32, 0) (0, 0) Facing.Right 7 1 = false := by
  have hsteps : coneForwardSteps (32, 0) (0, 0) Facing.Right = 8 := by
    simp only [coneForwardSteps, coneForward, coneForwardScale, facingDirVec, facing_dir,
      WORLD_TILE_SIZE]
    norm_num
  have H := c5_range_boundary_inclusive (32, 0) (0, 0) Facing.Right 8 1
    (by
      simp only [coneForward, facingDirVec, facing_dir, WORLD_TILE_SIZE]
      norm_num)
    (by
      simp only [coneSide, facingDirVec, facing_dir, WORLD_TILE_SIZE]
      rw [hsteps]
      norm_num)
  exact ⟨H.1 hsteps, H.2 7 (by rw [hsteps]; norm_num)⟩

/-- C7: the temporal smoother computes next = current + (target - current) *
alpha with alpha = clamp(smooth_speed * dt, 0, 1); iterated against a constant
target the error contracts by the factor (1 - alpha) each update, the value
stays between its start and the target (never overshooting), the approach is
monotone, and alpha = 1 (e.g. smooth_speed * dt ≥ 1) reaches the target in a
single update. -/
theorem c7_smoother_convergence (speed dt b0 target alpha : ℝ)
    (halpha : alpha = clampR (speed * dt) 0 1) :
    (∀ n, |smoothIter target alpha b0 (n + 1) - target| =
      (1 - alpha) * |smoothIter target alpha b0 n - target|) ∧
    (∀ n, min b0 target ≤ smoothIter target alpha b0 n ∧
      smoothIter target alpha b0 n ≤ max b0 target) ∧
    (b0 ≤ target → ∀ n, smoothIter target alpha b0 n ≤ smoothIter target alpha b0 (n + 1)) ∧
    (target ≤ b0 → ∀ n, smoothIter target alpha b0 (n + 1) ≤ smoothIter target alpha b0 n) ∧
    (1 ≤ speed * dt → smoothIter target alpha b0 1 = target) := by
  have h0 : 0 ≤ alpha := halpha ▸ clampR_nonneg _
  have h1 : alpha ≤ 1 := halpha ▸ clampR_le_one _
  have hup : ∀ b : ℝ, b ≤ target → smoothStep b target alpha ≤ target := by
    intro b hb
    unfold smoothStep
    nlinarith
  have hdown : ∀ b : ℝ, target ≤ b → target ≤ smoothStep b target alpha := by
    intro b hb
    unfold smoothStep
    nlinarith
  refine ⟨?_, ?_, ?_, ?_, ?_⟩
  · intro n
    have : smoothIter target alpha b0 (n + 1) - target =
        (1 - alpha) * (smoothIter target alpha b0 n - target) := by
      show smoothStep (smoothIter target alpha b0 n) target alpha - target = _
      unfold smoothStep
      ring
    rw [this, abs_mul, abs_of_nonneg (by linarith : (0 : ℝ) ≤ 1 - alpha)]
  · intro n
    induction n with
    | zero => exact ⟨min_le_left _ _, le_max_left _ _⟩
    | succ n ih =>
      have hb := @lerp_between (smoothIter target alpha b0 n) target alpha h0 h1
      constructor
      · calc min b0 target ≤ min (smoothIter target alpha b0 n) target := by
              rcases ih with ⟨ih1, _⟩
              exact le_min ih1 (min_le_right _ _)
          _ ≤ smoothIter target alpha b0 (n + 1) := hb.1
      · calc smoothIter target alpha b0 (n + 1) ≤ max (smoothIter target alpha b0 n) target :=
              hb.2
          _ ≤ max b0 target := by
              rcases ih with ⟨_, ih2⟩
              exact max_le ih2 (le_max_right _ _)
  · intro hb0 n
    have hle : ∀ m, smoothIter target alpha b0 m ≤ target := by
      intro m
      induction m with
      | zero => exact hb0
      | succ m ih => exact hup _ ih
    show smoothIter target alpha b0 n ≤ smoothStep (smoothIter target alpha b0 n) target alpha
    unfold smoothStep
    nlinarith [hle n]
  · intro hb0 n
    have hge : ∀ m, target ≤ smoothIter target alpha b0 m := by
      intro m
      induction m with
      | zero => exact hb0
      | succ m ih => exact hdown _ ih
    show smoothStep (smoothIter target alpha b0 n) target alpha ≤ smoothIter target alpha b0 n
    unfold smoothStep
    nlinarith [hge n]
  · intro hsd
    have ha : alpha = 1 := by
      rw [halpha]
      unfold clampR
      rw [max_eq_left (by linarith), min_eq_right hsd]
    show smoothStep b0 target alpha = target
    rw [ha]
    unfold smoothStep
    ring

/-- C7 witness: smooth_speed = 60 and dt = 1/60 give alpha = 1, and a single
update from brightness 0 with target 1 reaches the target exactly. -/
theorem c7_smoother_convergence_witness :
    smoothIter 1 (clampR (60 * (1 / 60)) 0 1) 0 1 = 1 :=
  (c7_smoother_convergence 60 (1 / 60) 0 1 (clampR (60 * (1 / 60)) 0 1) rfl).2.2.2.2
    (by norm_num)

/-- C8: the dither/quantizer block is the deterministic map described by the
spec: the dither phase is the always-non-negative modulo ((x - ox) mod 4,
(y - oy) mod 4), and the display value is max_brightness times the clamped
quantized level floor(normalized * pixel_levels + bayer * dither_strength) /
pixel_levels. -/
theorem c8_dither_quantizer (cfg : LightConfig) (next : ℝ) (x y ox oy : ℤ)
    (hmb : 0 < cfg.maxBrightness) :
    (0 ≤ (x - ox).emod 4 ∧ (x - ox).emod 4 < 4 ∧
      0 ≤ (y - oy).emod 4 ∧ (y - oy).emod 4 < 4) ∧
    quantizedDisplay cfg next x y ox oy =
      cfg.maxBrightness * clampR
        (((⌊clampR (next / cfg.maxBrightness) 0 1 * cfg.pixelLevels +
          bayer_4x4 ((x - ox).emod 4).toNat ((y - oy).emod 4).toNat *
            cfg.ditherStrength⌋ : ℤ) : ℝ) / cfg.pixelLevels) 0 1 := by
  refine ⟨⟨Int.emod_nonneg _ (by norm_num), Int.emod_lt_of_pos _ (by norm_num),
    Int.emod_nonneg _ (by norm_num), Int.emod_lt_of_pos _ (by norm_num)⟩, ?_⟩
  simp only [quantizedDisplay]
  rw [if_pos hmb]

/-- C8 witness: the world pass constants have max_brightness 0.85 > 0, so the
quantizer at brightness 1/2, tile (3, 2) and observer tile (0, 0) satisfies
the spec formula and its dither phase lies in [0, 4). -/
theorem c8_dither_quantizer_witness :
    0 ≤ ((3 : ℤ) - 0).emod 4 ∧ ((3 : ℤ) - 0).emod 4 < 4 ∧
      0 ≤ ((2 : ℤ) - 0).emod 4 ∧ ((2 : ℤ) - 0).emod 4 < 4 :=
  (c8_dither_quantizer worldConfig (1 / 2) 3 2 0 0 (by norm_num [worldConfig])).1

/-- C1: brightness stays inside [0, max_brightness] for both passes: the
initial field is all zero, and one full update pass (smoothing every scanned
tile toward a target in [0, max_brightness] with alpha in [0, 1]) maps any
state satisfying the bounds to a state satisfying the bounds, for the world
pass with its max_brightness 0.85 and the light pass with its 0.93. -/
theorem c1_brightness_bounds :
    (∀ y x : ℤ, 0 ≤ initialGrid.brightness y x ∧
      initialGrid.brightness y x ≤ worldConfig.maxBrightness) ∧
    (∀ (obs : Option Observer) (dt : ℝ) (grid : WorldGrid) (chunks : WorldChunks),
      (∀ y x : ℤ, 0 ≤ grid.brightness y x ∧ grid.brightness y x ≤ worldConfig.maxBrightness) →
      ∀ y x : ℤ, 0 ≤ (worldUpdateVisibility obs dt grid chunks).1.brightness y x ∧
        (worldUpdateVisibility obs dt grid chunks).1.brightness y x ≤
          worldConfig.maxBrightness) ∧
    (∀ y x : ℤ, 0 ≤ initialGrid.brightness y x ∧
      initialGrid.brightness y x ≤ lightConfig.maxBrightness) ∧
    (∀ (obs : Option Observer) (dt : ℝ) (grid : WorldGrid) (chunks : WorldChunks),
      (∀ y x : ℤ, 0 ≤ grid.brightness y x ∧ grid.brightness y x ≤ lightConfig.maxBrightness) →
      ∀ y x : ℤ, 0 ≤ (lightUpdateVisibility obs dt grid chunks).1.brightness y x ∧
        (lightUpdateVisibility obs dt grid chunks).1.brightness y x ≤
          lightConfig.maxBrightness) := by
  refine ⟨?_, ?_, ?_, ?_⟩
  · intro y x
    constructor
    · exact le_refl 0
    · norm_num [initialGrid, worldConfig]
  · intro obs dt grid chunks hinv
    exact pass_brightness_inv worldConfig obs dt grid chunks
      (by norm_num [worldConfig]) (by norm_num [worldConfig])
      (by norm_num [worldConfig]) (by norm_num [worldConfig]) hinv
  · intro y x
    constructor
    · exact le_refl 0
    · norm_num [initialGrid, lightConfig]
  · intro obs dt grid chunks hinv
    exact pass_brightness_inv lightConfig obs dt grid chunks
      (by norm_num [lightConfig]) (by norm_num [lightConfig])
      (by norm_num [lightConfig]) (by norm_num [lightConfig]) hinv

lemma floor_eq_int {x : ℝ} {z : ℤ} (h1 : (z : ℝ) ≤ x) (h2 : x < z + 1) : ⌊x⌋ = z :=
  Int.floor_eq_iff.mpr ⟨h1, h2⟩

lemma rustRound_eq {x : ℝ} {z : ℤ} (h0 : 0 ≤ x) (h1 : (z : ℝ) ≤ x + 1 / 2)
    (h2 : x + 1 / 2 < z + 1) : rustRound x = z := by
  unfold rustRound
  rw [if_pos h0]
  exact floor_eq_int h1 h2

lemma lightPos_w : lightPosOf worldConfig (402, 402) = (402, 402) := by
  have hsnap : worldConfig.lightSnap = 1 := by
    norm_num [worldConfig, WORLD_TILE_SIZE]
  unfold lightPosOf
  rw [if_pos (by rw [hsnap]; norm_num), hsnap]
  have hr : rustRound (((402 : ℝ), (402 : ℝ)).1 / 1) = 402 :=
    rustRound_eq (by norm_num) (by norm_num) (by norm_num)
  rw [hr]
  norm_num [Prod.ext_iff]

lemma lightPos_l : lightPosOf lightConfig (402, 402) = (402, 402) := by
  have hsnap : lightConfig.lightSnap = 1 := by norm_num [lightConfig]
  unfold lightPosOf
  rw [if_pos (by rw [hsnap]; norm_num), hsnap]
  have hr : rustRound (((402 : ℝ), (402 : ℝ)).1 / 1) = 402 :=
    rustRound_eq (by norm_num) (by norm_num) (by norm_num)
  rw [hr]
  norm_num [Prod.ext_iff]

lemma ptx_w : ptxOf worldConfig (402, 402) = 100 := by
  unfold ptxOf
  rw [lightPos_w]
  unfold WORLD_TILE_SIZE
  exact floor_eq_int (by norm_num) (by norm_num)

lemma pty_w : ptyOf worldConfig (402, 402) = 100 := by
  unfold ptyOf
  rw [lightPos_w]
  unfold WORLD_TILE_SIZE
  exact floor_eq_int (by norm_num) (by norm_num)

lemma ptx_l : ptxOf lightConfig (402, 402) = 100 := by
  unfold ptxOf
  rw [lightPos_l]
  unfold WORLD_TILE_SIZE
  exact floor_eq_int (by norm_num) (by norm_num)

lemma pty_l : ptyOf lightConfig (402, 402) = 100 := by
  unfold ptyOf
  rw [lightPos_l]
  unfold WORLD_TILE_SIZE
  exact floor_eq_int (by norm_num) (by norm_num)

lemma range_w : rangeOf worldConfig = 72 := by
  unfold rangeOf
  norm_num [worldConfig]

lemma range_l : rangeOf lightConfig = 124 := by
  unfold rangeOf
  norm_num [lightConfig]

lemma inner_w : innerBoundOf worldConfig = 74 := by
  unfold innerBoundOf
  rw [range_w]
  norm_num

lemma inner_l : innerBoundOf lightConfig = 126 := by
  unfold innerBoundOf
  rw [range_l]
  norm_num

lemma outer_w : outerBoundOf worldConfig = 82 := by
  unfold outerBoundOf
  rw [inner_w]
  norm_num [worldConfig]

lemma outer_l : outerBoundOf lightConfig = 134 := by
  unfold outerBoundOf
  rw [inner_l]
  norm_num [lightConfig]

lemma targetBrightness_axis (cfg : LightConfig) (tc pp : ℝ × ℝ) (facing : Facing)
    (range spread : ℝ) (hside : coneSide tc pp facing = 0) (hsb : cfg.sideBias ≠ 0)
    (hdb : 0 ≤ cfg.distanceBias) :
    targetBrightness cfg tc pp facing range spread =
      cfg.maxBrightness *
        (1 - clampR (gridDistance tc pp / range) 0 1 ^ cfg.distanceBias) ^
          cfg.brightnessCurve := by
  simp only [targetBrightness]
  rw [hside, abs_zero, zero_div]
  rw [clampR_eq_of_mem (le_refl (0 : ℝ)) zero_le_one, Real.zero_rpow hsb]
  have htd0 : (0 : ℝ) ≤ clampR (gridDistance tc pp / range) 0 1 ^ cfg.distanceBias :=
    Real.rpow_nonneg (clampR_nonneg _) _
  have htd1 : clampR (gridDistance tc pp / range) 0 1 ^ cfg.distanceBias ≤ 1 :=
    Real.rpow_le_one (clampR_nonneg _) (clampR_le_one _) hdb
  rw [max_eq_left htd0, clampR_eq_of_mem htd0 htd1,
    clampR_eq_of_mem (by linarith) (by linarith)]

/-- C6: on the observer's forward axis (side component zero), the target
brightness computed by the world pass is monotonically non-increasing in the
grid-unit distance: for two visible axis tiles at distances d1 < d2 ≤ range,
the nearer tile's target is at least the farther tile's. -/
theorem c6_distance_falloff_monotone (tc1 tc2 pp : ℝ × ℝ) (facing : Facing) (spread : ℝ)
    (hv1 : is_visible_in_cone tc1 pp facing (rangeOf worldConfig) spread = true)
    (hv2 : is_visible_in_cone tc2 pp facing (rangeOf worldConfig) spread = true)
    (hs1 : coneSide tc1 pp facing = 0) (hs2 : coneSide tc2 pp facing = 0)
    (hd : gridDistance tc1 pp < gridDistance tc2 pp)
    (hdr : gridDistance tc2 pp ≤ rangeOf worldConfig) :
    targetBrightness worldConfig tc2 pp facing (rangeOf worldConfig) spread ≤
      targetBrightness worldConfig tc1 pp facing (rangeOf worldConfig) spread := by
  have hsb : worldConfig.sideBias ≠ 0 := by norm_num [worldConfig]
  have hdb : (0 : ℝ) ≤ worldConfig.distanceBias := by norm_num [worldConfig]
  rw [targetBrightness_axis worldConfig tc1 pp facing _ spread hs1 hsb hdb,
    targetBrightness_axis worldConfig tc2 pp facing _ spread hs2 hsb hdb]
  have hR : (0 : ℝ) < rangeOf worldConfig := by
    rw [range_w]
    norm_num
  have hd10 : 0 ≤ gridDistance tc1 pp := Real.sqrt_nonneg _
  have hd20 : 0 ≤ gridDistance tc2 pp := le_trans hd10 (le_of_lt hd)
  have hq10 : 0 ≤ gridDistance tc1 pp / rangeOf worldConfig := div_nonneg hd10 (le_of_lt hR)
  have hq20 : 0 ≤ gridDistance tc2 pp / rangeOf worldConfig := div_nonneg hd20 (le_of_lt hR)
  have hq21 : gridDistance tc2 pp / rangeOf worldConfig ≤ 1 := (div_le_one hR).mpr hdr
  have hq12 : gridDistance tc1 pp / rangeOf worldConfig ≤
      gridDistance tc2 pp / rangeOf worldConfig :=
    (div_le_div_iff_of_pos_right hR).mpr (le_of_lt hd)
  have hq11 : gridDistance tc1 pp / rangeOf worldConfig ≤ 1 := le_trans hq12 hq21
  rw [clampR_eq_of_mem hq10 hq11, clampR_eq_of_mem hq20 hq21]
  have ht12 : (gridDistance tc1 pp / rangeOf worldConfig) ^ worldConfig.distanceBias ≤
      (gridDistance tc2 pp / rangeOf worldConfig) ^ worldConfig.distanceBias :=
    Real.rpow_le_rpow hq10 hq12 hdb
  have ht21 : (gridDistance tc2 pp / rangeOf worldConfig) ^ worldConfig.distanceBias ≤ 1 :=
    Real.rpow_le_one hq20 hq21 hdb
  have hf : (1 - (gridDistance tc2 pp / rangeOf worldConfig) ^ worldConfig.distanceBias) ^
      worldConfig.brightnessCurve ≤
      (1 - (gridDistance tc1 pp / rangeOf worldConfig) ^ worldConfig.distanceBias) ^
      worldConfig.brightnessCurve :=
    Real.rpow_le_rpow (by linarith) (by linarith) (by norm_num [worldConfig])
  exact mul_le_mul_of_nonneg_left hf (by norm_num [worldConfig])

/-- C6 witness: observer at (402, 402) facing Right with spread 1; the axis
tile centers (406, 402) and (410, 402) are both visible, lie at grid distances
1 < 2 ≤ 72, and the farther one's target brightness is no larger. -/
theorem c6_distance_falloff_monotone_witness :
    targetBrightness worldConfig (410, 402) (402, 402) Facing.Right (rangeOf worldConfig) 1 ≤
      targetBrightness worldConfig (406, 402) (402, 402) Facing.Right (rangeOf worldConfig) 1 := by
  have hcf1 : coneForward (406, 402) (402, 402) Facing.Right = 1 := by
    norm_num [coneForward, facingDirVec, facing_dir, WORLD_TILE_SIZE]
  have hcf2 : coneForward (410, 402) (402, 402) Facing.Right = 2 := by
    norm_num [coneForward, facingDirVec, facing_dir, WORLD_TILE_SIZE]
  have hscale : coneForwardScale Facing.Right = 1 := by
    norm_num [coneForwardScale, facingDirVec, facing_dir]
  have hsteps1 : coneForwardSteps (406, 402) (402, 402) Facing.Right = 1 := by
    unfold coneForwardSteps
    rw [hcf1, hscale]
    norm_num
  have hsteps2 : coneForwardSteps (410, 402) (402, 402) Facing.Right = 2 := by
    unfold coneForwardSteps
    rw [hcf2, hscale]
    norm_num
  have hside1 : coneSide (406, 402) (402, 402) Facing.Right = 0 := by
    norm_num [coneSide, facingDirVec, facing_dir, WORLD_TILE_SIZE]
  have hside2 : coneSide (410, 402) (402, 402) Facing.Right = 0 := by
    norm_num [coneSide, facingDirVec, facing_dir, WORLD_TILE_SIZE]
  have hgd1 : gridDistance (406, 402) (402, 402) = 1 := by
    unfold gridDistance WORLD_TILE_SIZE
    norm_num [Real.sqrt_one]
  have hgd2 : gridDistance (410, 402) (402, 402) = 2 := by
    have h4 : gridDistance (410, 402) (402, 402) = Real.sqrt 4 := by
      unfold gridDistance WORLD_TILE_SIZE
      norm_num
    rw [h4, show (4 : ℝ) = 2 ^ 2 by norm_num, Real.sqrt_sq (by norm_num : (0 : ℝ) ≤ 2)]
  refine c6_distance_falloff_monotone (406, 402) (410, 402) (402, 402) Facing.Right 1
    ?_ ?_ hside1 hside2 ?_ ?_
  · unfold is_visible_in_cone
    rw [if_neg (by rw [hcf1]; norm_num), if_neg (by rw [hsteps1, range_w]; norm_num)]
    exact decide_eq_true (by rw [hside1, hsteps1]; norm_num)
  · unfold is_visible_in_cone
    rw [if_neg (by rw [hcf2]; norm_num), if_neg (by rw [hsteps2, range_w]; norm_num)]
    exact decide_eq_true (by rw [hside2, hsteps2]; norm_num)
  · rw [hgd1, hgd2]
    norm_num
  · rw [hgd2, range_w]
    norm_num

/-- C9: in a single tick of the world pass, no in-grid tile outside the
axis-aligned window of half-width outer_bound = ceil(range) + 2 +
render_padding around the observer tile has its visibility, brightness or
chunk color slots written, and the number of scanned tiles is bounded by
(2 * outer_bound + 1) squared. -/
theorem c9_window_bounding (o : Observer) (dt : ℝ) (grid : WorldGrid)
    (chunks : WorldChunks) (hcols : chunks.cols = 24) :
    (∀ y x : ℤ, inGrid x y →
      (x < ptxOf worldConfig o.pos - outerBoundOf worldConfig ∨
        ptxOf worldConfig o.pos + outerBoundOf worldConfig < x ∨
        y < ptyOf worldConfig o.pos - outerBoundOf worldConfig ∨
        ptyOf worldConfig o.pos + outerBoundOf worldConfig < y) →
      (worldUpdateVisibility (some o) dt grid chunks).1.field y x = grid.field y x ∧
      (worldUpdateVisibility (some o) dt grid chunks).1.brightness y x =
        grid.brightness y x ∧
      ∀ j : ℕ, slotBase x.toNat y.toNat ≤ j → j ≤ slotBase x.toNat y.toNat + 3 →
        (worldUpdateVisibility (some o) dt grid chunks).2.colors
            (chunkIndexOf 24 x.toNat y.toNat) j =
          chunks.colors (chunkIndexOf 24 x.toNat y.toNat) j) ∧
    (windowCoords (winMinX worldConfig o.pos) (winMaxX worldConfig o.pos)
        (winMinY worldConfig o.pos) (winMaxY worldConfig o.pos)).length ≤
      (2 * outerBoundOf worldConfig + 1).toNat ^ 2 := by
  constructor
  · intro y x hg hout
    refine ⟨pass_field_outside hout, pass_brightness_outside hout,
      fun j hj1 hj2 => pass_colors_outside hout hg hcols hj1 hj2⟩
  · rw [windowCoords_length]
    have hy : (winMaxY worldConfig o.pos + 1 - winMinY worldConfig o.pos).toNat ≤
        (2 * outerBoundOf worldConfig + 1).toNat := by
      unfold winMaxY winMinY
      omega
    have hx : (winMaxX worldConfig o.pos + 1 - winMinX worldConfig o.pos).toNat ≤
        (2 * outerBoundOf worldConfig + 1).toNat := by
      unfold winMaxX winMinX
      omega
    calc (winMaxY worldConfig o.pos + 1 - winMinY worldConfig o.pos).toNat *
        (winMaxX worldConfig o.pos + 1 - winMinX worldConfig o.pos).toNat ≤
          (2 * outerBoundOf worldConfig + 1).toNat *
            (2 * outerBoundOf worldConfig + 1).toNat := Nat.mul_le_mul hy hx
      _ = (2 * outerBoundOf worldConfig + 1).toNat ^ 2 := (sq _).symm

/-- C9 witness: with the observer at (402, 402) (tile (100, 100)) the window
half-width is 82, tile (300, 300) lies outside the window, and a full world
pass from the spawned chunk store leaves its brightness untouched. -/
theorem c9_window_bounding_witness :
    (worldUpdateVisibility (some obsRight) 0 gridHalf spawnedChunks).1.brightness 300 300 =
      gridHalf.brightness 300 300 := by
  have H := c9_window_bounding obsRight 0 gridHalf spawnedChunks (by rfl)
  refine (H.1 300 300 ?_ ?_).2.1
  · unfold inGrid WIDTH HEIGHT
    omega
  · rw [show obsRight.pos = ((402 : ℝ), (402 : ℝ)) from rfl, ptx_w, pty_w, outer_w]
    omega

/-- C3 (amended): for every non-wall tile of the scan window, the blended
brightness is stored only when the delta exceeds the tolerance 0.001; at or
below the tolerance the brightness store is suppressed together with the
quantizer and the mesh write, and the RGBA color reaches the tile's chunk
slots exactly when the delta exceeds the tolerance. -/
theorem c3_gated_store_and_color (o : Observer) (dt : ℝ) (grid : WorldGrid)
    (chunks : WorldChunks) (y x : ℤ) (hg : inGrid x y) (hw : grid.walls y x = false)
    (hin : winMinY worldConfig o.pos ≤ y ∧ y ≤ winMaxY worldConfig o.pos ∧
      winMinX worldConfig o.pos ≤ x ∧ x ≤ winMaxX worldConfig o.pos)
    (hcols : chunks.cols = 24) (hcount : chunks.meshCount = 576)
    (hlen : ∀ i, chunks.colorsLen i = 2500) :
    ((worldUpdateVisibility (some o) dt grid chunks).1.brightness y x =
      if |nextBrightnessAt worldConfig o dt grid x y - grid.brightness y x| > 0.001 then
        nextBrightnessAt worldConfig o dt grid x y
      else grid.brightness y x) ∧
    ∀ j : ℕ, slotBase x.toNat y.toNat ≤ j → j ≤ slotBase x.toNat y.toNat + 3 →
      (worldUpdateVisibility (some o) dt grid chunks).2.colors
          (chunkIndexOf 24 x.toNat y.toNat) j =
        if |nextBrightnessAt worldConfig o dt grid x y - grid.brightness y x| > 0.001 then
          linearColorOf (quantizedDisplay worldConfig
            (nextBrightnessAt worldConfig o dt grid x y) x y
            (ptxOf worldConfig o.pos) (ptyOf worldConfig o.pos))
        else chunks.colors (chunkIndexOf 24 x.toNat y.toNat) j := by
  constructor
  · simp only [nextBrightnessAt]
    exact pass_brightness_in hg hw hin
  · intro j hj1 hj2
    simp only [nextBrightnessAt]
    have hcolors := @pass_colors_in worldConfig o dt grid chunks y x hg hw hin hcols j hj1 hj2
    rw [show worldUpdateVisibility (some o) dt grid chunks =
      updateVisibilityWith worldConfig (some o) dt grid chunks from rfl]
    rw [hcolors]
    have hidx : chunkIndexOf 24 x.toNat y.toNat < chunks.meshCount := by
      rw [hcount]
      obtain ⟨h1, h2, h3, h4⟩ := hg
      unfold chunkIndexOf CHUNK_SIZE
      simp only [WIDTH, HEIGHT] at h2 h4
      omega
    have hbase : slotBase x.toNat y.toNat + 3 <
        chunks.colorsLen (chunkIndexOf 24 x.toNat y.toNat) := by
      rw [hlen]
      unfold slotBase CHUNK_SIZE
      omega
    rw [if_pos hidx, if_pos hbase]

/-- C3 (amended) witness: a full world pass from the initial grid with the
spawned chunk store at the in-window non-wall tile (90, 100). -/
theorem c3_gated_store_and_color_witness :
    (worldUpdateVisibility (some obsRight) 0 initialGrid spawnedChunks).1.brightness 100 90 =
      if |nextBrightnessAt worldConfig obsRight 0 initialGrid 90 100 -
            initialGrid.brightness 100 90| > 0.001 then
        nextBrightnessAt worldConfig obsRight 0 initialGrid 90 100
      else initialGrid.brightness 100 90 :=
  (c3_gated_store_and_color obsRight 0 initialGrid spawnedChunks 100 90
    (by simp only [inGrid, WIDTH, HEIGHT]; omega)
    (by rfl)
    (by
      unfold winMinY winMaxY winMinX winMaxX
      rw [show obsRight.pos = ((402 : ℝ), (402 : ℝ)) from rfl, ptx_w, pty_w, outer_w]
      simp only [WIDTH, HEIGHT]
      omega)
    (by rfl) (by rfl) (fun _ => by rfl)).1

lemma tileCenter_90_100 : tileCenter 90 100 = ((362 : ℝ), (402 : ℝ)) := by
  unfold tileCenter WORLD_TILE_SIZE
  norm_num [Prod.ext_iff]

lemma visibleAt_90_100_false :
    visibleAt worldConfig (402, 402) Facing.Right 100 100 90 100 = false := by
  unfold visibleAt
  have hii : inInner worldConfig 100 100 90 100 = true := by
    unfold inInner
    rw [inner_w]
    rw [decide_eq_true_eq]
    omega
  rw [hii]
  simp only [if_true]
  unfold is_visible_in_cone
  rw [if_pos]
  rw [tileCenter_90_100]
  norm_num [coneForward, facingDirVec, facing_dir, WORLD_TILE_SIZE]

lemma targetAt_90_100_zero :
    targetAt worldConfig (402, 402) Facing.Right 100 100 90 100 = 0 := by
  unfold targetAt
  rw [visibleAt_90_100_false]
  norm_num [worldConfig]

lemma alpha_w_small : alphaOf worldConfig (1 / 48000) = 0.001 := by
  unfold alphaOf
  have hs : worldConfig.smoothSpeed * (1 / 48000 : ℝ) = 0.001 := by
    norm_num [worldConfig]
  rw [hs, clampR_eq_of_mem (by norm_num) (by norm_num)]

/-- C3 counterexample: observer at (402, 402) facing Right, dt = 1/48000
(alpha = 0.001), brightness 0.5 everywhere.  Tile (90, 100) is a non-wall tile
of the scan window, behind the observer, so its target is 0 and the blended
smoother output is 0.4995 — but since |0.4995 - 0.5| = 0.0005 is at or below
the tolerance, the pass leaves the stored brightness at 0.5: the blended
result is NOT stored into the brightness mask, contradicting the claim that
only the quantizer and the mesh write are suppressed. -/
theorem c3_store_gate_counterexample :
    nextBrightnessAt worldConfig obsRight (1 / 48000) gridHalf 90 100 = 0.4995 ∧
    (worldUpdateVisibility (some obsRight) (1 / 48000) gridHalf spawnedChunks).1.brightness
        100 90 = 0.5 ∧
    (0.4995 : ℝ) ≠ 0.5 := by
  have hpos : obsRight.pos = ((402 : ℝ), (402 : ℝ)) := rfl
  have hfac : obsRight.facing = Facing.Right := rfl
  have hb : gridHalf.brightness 100 90 = 0.5 := rfl
  have hnext : nextBrightnessAt worldConfig obsRight (1 / 48000) gridHalf 90 100 = 0.4995 := by
    unfold nextBrightnessAt
    rw [hpos, hfac, lightPos_w, ptx_w, pty_w, targetAt_90_100_zero, alpha_w_small, hb]
    norm_num
  refine ⟨hnext, ?_, by norm_num⟩
  have hchar := @pass_brightness_in worldConfig obsRight (1 / 48000) gridHalf spawnedChunks
    100 90
    (by simp only [inGrid, WIDTH, HEIGHT]; omega)
    (by rfl)
    (by
      unfold winMinY winMaxY winMinX winMaxX
      rw [hpos, ptx_w, pty_w, outer_w]
      simp only [WIDTH, HEIGHT]
      omega)
  rw [hpos, hfac, lightPos_w, ptx_w, pty_w, targetAt_90_100_zero, alpha_w_small, hb] at hchar
  show (updateVisibilityWith worldConfig (some obsRight) (1 / 48000) gridHalf
    spawnedChunks).1.brightness 100 90 = 0.5
  rw [hchar]
  rw [if_neg]
  rw [show (0.5 : ℝ) + (0 - 0.5) * 0.001 - 0.5 = -0.0005 by norm_num, abs_neg,
    abs_of_nonneg (by norm_num : (0 : ℝ) ≤ 0.0005)]
  norm_num

/-- C2 (amended): the per-tile cone tests of the two passes are extensionally
equal as functions — the two update_visibility functions share the identical
per-tile algorithm and differ only in their tuning constants; the passes as
registered are therefore not equivalent (see the counterexample). -/
theorem c2_cone_tests_agree (tc pp : ℝ × ℝ) (facing : Facing) (range spread : ℝ) :
    is_visible_in_cone tc pp facing range spread =
      lightIsVisibleInCone tc pp facing range spread := rfl

/-- C2 counterexample: from the same state (observer at (402, 402) facing
Right, initial grid, spawned chunks, dt = 0) the two registered passes write
different visibility mask entries at tile (173, 100), which both passes scan
and cone-test: its forward distance is 73, beyond the world pass range 72 but
within the light pass range 124. -/
theorem c2_passes_not_equivalent_counterexample :
    (worldUpdateVisibility (some obsRight) 0 initialGrid spawnedChunks).1.field 100 173 ≠
      (lightUpdateVisibility (some obsRight) 0 initialGrid spawnedChunks).1.field 100 173 := by
  have hpos : obsRight.pos = ((402 : ℝ), (402 : ℝ)) := rfl
  have hfac : obsRight.facing = Facing.Right := rfl
  have hg : inGrid 173 100 := by
    simp only [inGrid, WIDTH, HEIGHT]
    omega
  have hw : initialGrid.walls 100 173 = false := rfl
  have htc : tileCenter 173 100 = ((694 : ℝ), (402 : ℝ)) := by
    unfold tileCenter WORLD_TILE_SIZE
    norm_num [Prod.ext_iff]
  have hcf : coneForward (694, 402) (402, 402) Facing.Right = 73 := by
    norm_num [coneForward, facingDirVec, facing_dir, WORLD_TILE_SIZE]
  have hscale : coneForwardScale Facing.Right = 1 := by
    norm_num [coneForwardScale, facingDirVec, facing_dir]
  have hsteps : coneForwardSteps (694, 402) (402, 402) Facing.Right = 73 := by
    unfold coneForwardSteps
    rw [hcf, hscale]
    norm_num
  have hside : coneSide (694, 402) (402, 402) Facing.Right = 0 := by
    norm_num [coneSide, facingDirVec, facing_dir, WORLD_TILE_SIZE]
  have hworld : (worldUpdateVisibility (some obsRight) 0 initialGrid
      spawnedChunks).1.field 100 173 = false := by
    have h := @pass_field_in worldConfig obsRight 0 initialGrid spawnedChunks 100 173 hg hw (by
      unfold winMinY winMaxY winMinX winMaxX
      rw [hpos, ptx_w, pty_w, outer_w]
      simp only [WIDTH, HEIGHT]
      omega)
    rw [hpos, hfac, lightPos_w, ptx_w, pty_w] at h
    rw [show worldUpdateVisibility (some obsRight) 0 initialGrid spawnedChunks =
      updateVisibilityWith worldConfig (some obsRight) 0 initialGrid spawnedChunks from rfl, h]
    unfold visibleAt
    have hii : inInner worldConfig 100 100 173 100 = true := by
      unfold inInner
      rw [inner_w, decide_eq_true_eq]
      omega
    rw [hii]
    simp only [if_true]
    unfold is_visible_in_cone
    rw [htc]
    rw [if_neg (by rw [hcf]; norm_num), if_pos (by rw [hsteps, range_w]; norm_num)]
  have hlight : (lightUpdateVisibility (some obsRight) 0 initialGrid
      spawnedChunks).1.field 100 173 = true := by
    have h := @pass_field_in lightConfig obsRight 0 initialGrid spawnedChunks 100 173 hg hw (by
      unfold winMinY winMaxY winMinX winMaxX
      rw [hpos, ptx_l, pty_l, outer_l]
      simp only [WIDTH, HEIGHT]
      omega)
    rw [hpos, hfac, lightPos_l, ptx_l, pty_l] at h
    rw [show lightUpdateVisibility (some obsRight) 0 initialGrid spawnedChunks =
      updateVisibilityWith lightConfig (some obsRight) 0 initialGrid spawnedChunks from rfl, h]
    unfold visibleAt
    have hii : inInner lightConfig 100 100 173 100 = true := by
      unfold inInner
      rw [inner_l, decide_eq_true_eq]
      omega
    rw [hii]
    simp only [if_true]
    unfold is_visible_in_cone
    rw [htc]
    rw [if_neg (by rw [hcf]; norm_num), if_neg (by rw [hsteps, range_l]; norm_num)]
    have hspr : 0 ≤ spreadOf lightConfig := by
      have hang : lightConfig.viewAngleDegrees * (Real.pi / 180) * 0.5 = Real.pi / 3 := by
        rw [show lightConfig.viewAngleDegrees = (120.0 : ℝ) from rfl]
        ring
      unfold spreadOf
      rw [hang, Real.tan_pi_div_three]
      exact Real.sqrt_nonneg 3
    rw [hside, hsteps]
    exact decide_eq_true (by
      rw [abs_zero]
      exact mul_nonneg (by norm_num) hspr)
  rw [hworld, hlight]
  simp

/-- C1 witness: the preservation part applied to the initial all-zero grid
(which satisfies the bounds by evaluation) for the world pass. -/
theorem c1_brightness_bounds_witness :
    0 ≤ (worldUpdateVisibility none 0 initialGrid spawnedChunks).1.brightness 0 0 ∧
      (worldUpdateVisibility none 0 initialGrid spawnedChunks).1.brightness 0 0 ≤
        worldConfig.maxBrightness :=
  c1_brightness_bounds.2.1 none 0 initialGrid spawnedChunks
    (fun _ _ => ⟨le_refl 0, by norm_num [initialGrid, worldConfig]⟩) 0 0

end LlmGame
